import Mathlib

/-!
# Verification of the oil-analysis anomaly-alert pipeline

Shallow embedding of the core of the `oil_analysis_anomaly_alert` repository:
feature configuration (`app/config.py`), the sliding window
(`app/windows/sliding_window.py`), the training routine
(`app/models/model_builder.py`), the S3-backed store (`app/models/model_store.py`),
the bundle loader (`app/models/model_loader.py`), the LRU model cache
(`app/models/model_cache.py`), the trend-history client
(`app/api/trend_api_client.py`), the anomaly detector
(`app/predictor/anomaly_detector.py`), and the Flink operator
(`app/flink/operators.py`).

Python scalar values are modelled by `PyVal`; floating-point results of
`astype(float)` are modelled by `FloatV` (a rational or NaN); dictionaries by
association lists.  External effects (S3, HTTP, the fitted estimators) are
modelled by explicit state passing or by oracle parameters.
-/

namespace OilAnomaly

/-- A Python scalar value as it appears in a parsed JSON `PROCESS_PARAMETER`
map: `None`/null, a number (JSON numbers modelled as rationals), or a string. -/
inductive PyVal where
  | vnone : PyVal
  | vnum (q : ℚ) : PyVal
  | vstr (s : String) : PyVal
deriving DecidableEq, Repr

/-- Result of coercing one value with pandas `astype(float)`: either NaN or a
finite value (modelled as a rational). -/
inductive FloatV where
  | nan : FloatV
  | num (q : ℚ) : FloatV
deriving DecidableEq, Repr

/-- A Python dict from string keys, modelled as an association list (first
binding wins, as produced by JSON parsing). -/
abbrev PyDict (α : Type) := List (String × α)

/-- `d.get(k)` for a dict that may lack the key: `None` on a missing key.
Mirrors `params.get(code)` in `model_builder._train_single_monitor` and
`sliding_window.to_dataframe`: a missing key and an explicit null are
indistinguishable. -/
def pyGet (d : PyDict PyVal) (k : String) : PyVal :=
  match d.lookup k with
  | some v => v
  | none => PyVal.vnone

/-! ## Feature configuration (`app/config.py`) -/

/-- `FEATURE_MAP` from `app/config.py`: raw sensor code → readable name. -/
def FEATURE_MAP : PyDict String :=
  [("001_A", "Oil Temperature"),
   ("001_B", "Water Activity"),
   ("001_C", "Moisture"),
   ("001_D", "Kinematic Viscosity"),
   ("001_E", "Oil Density"),
   ("001_F", "Oil Dielectric Constant"),
   ("001_G", "Ferrous Particles Level 1"),
   ("001_H", "Ferrous Particles Level 2"),
   ("001_I", "Ferrous Particles Level 3"),
   ("001_J", "Ferrous Particles Level 4"),
   ("001_K", "Ferrous Particles Level 5"),
   ("001_L", "Total Ferrous Particles"),
   ("001_M", "Non-Ferrous Particles 1"),
   ("001_N", "Non-Ferrous Particles 2"),
   ("001_O", "Non-Ferrous Particles 3"),
   ("001_P", "Non-Ferrous Particles 4"),
   ("001_Q", "Non-Ferrous Particles 5"),
   ("001_R", "Total Non-Ferrous Particles")]

/-- `MODEL_FEATURE_CODES` from `app/config.py`: the 6 codes used by models. -/
def MODEL_FEATURE_CODES : List String :=
  ["001_A", "001_B", "001_C", "001_D", "001_E", "001_F"]

/-- Total lookup in `FEATURE_MAP`; on the 6 model codes the default branch is
never taken (`config.py` asserts every model code is in the map). -/
def featureNameOf (code : String) : String :=
  (FEATURE_MAP.lookup code).getD code

/-- `FEATURES` from `app/config.py`: readable names of the model codes, in
code order. -/
def FEATURES : List String := MODEL_FEATURE_CODES.map featureNameOf

/-- `MODEL_FEATURE_NAMES_ORDERED` from `app/config.py` (same construction as
`FEATURES`). -/
def MODEL_FEATURE_NAMES_ORDERED : List String := MODEL_FEATURE_CODES.map featureNameOf

example : FEATURES =
    ["Oil Temperature", "Water Activity", "Moisture", "Kinematic Viscosity",
     "Oil Density", "Oil Dielectric Constant"] := by decide

/-! ## Training row filter (`app/models/model_builder.py`, `_train_single_monitor`)

The Python loop is

```
for params in param_rows:
    filtered = \x7b\x7d
    for code in MODEL_FEATURE_CODES:
        value = params.get(code)
        if value is None:
            break
        filtered[MODEL_FEATURE_NAME_MAP[code]] = value
    else:
        rows.append(filtered)
```

so a row survives iff `params.get(code)` is non-`None` for every code, and a
surviving row is re-keyed by readable feature name. -/

/-- Inner `for code in MODEL_FEATURE_CODES` loop over one raw row: `none`
models the `break` (row dropped), `some filtered` the `else:` append. -/
def filterRow (codes : List String) (params : PyDict PyVal) :
    Option (PyDict PyVal) :=
  match codes with
  | [] => some []
  | code :: rest =>
    match pyGet params code with
    | PyVal.vnone => none
    | v =>
      match filterRow rest params with
      | none => none
      | some tail => some ((featureNameOf code, v) :: tail)

/-- A row survives the filter iff every model feature code is present and
non-null in it. -/
theorem filterRow_isSome_iff (codes : List String) (params : PyDict PyVal) :
    (filterRow codes params).isSome ↔
      ∀ c ∈ codes, pyGet params c ≠ PyVal.vnone := by
  induction codes with
  | nil => simp [filterRow]
  | cons code rest ih =>
    constructor
    · intro h c hc
      rcases List.mem_cons.mp hc with rfl | hmem
      · intro hnone
        simp [filterRow, hnone] at h
      · cases hv : pyGet params code with
        | vnone => simp [filterRow, hv] at h
        | vnum q =>
          simp only [filterRow, hv] at h
          cases hrest : filterRow rest params with
          | none => rw [hrest] at h; simp at h
          | some tail => exact (ih.mp (by rw [hrest]; rfl)) c hmem
        | vstr s =>
          simp only [filterRow, hv] at h
          cases hrest : filterRow rest params with
          | none => rw [hrest] at h; simp at h
          | some tail => exact (ih.mp (by rw [hrest]; rfl)) c hmem
    · intro h
      have hcode : pyGet params code ≠ PyVal.vnone := h code (List.mem_cons_self _ _)
      have hrest : (filterRow rest params).isSome :=
        ih.mpr fun c hc => h c (List.mem_cons_of_mem _ hc)
      cases hv : pyGet params code with
      | vnone => exact absurd hv hcode
      | vnum q =>
        cases hr : filterRow rest params with
        | none => rw [hr] at hrest; simp at hrest
        | some tail => simp [filterRow, hv, hr]
      | vstr s =>
        cases hr : filterRow rest params with
        | none => rw [hr] at hrest; simp at hrest
        | some tail => simp [filterRow, hv, hr]

/-! ## Metadata values and the S3 model store (`app/models/model_store.py`)

The store is modelled as an association list from S3 keys to stored objects;
`put_object` prepends (first binding wins on lookup, i.e. overwrite).
Binary artifacts (pickled model/scaler) are opaque payload tags. -/

/-- A JSON metadata value as written by `json.dumps(metadata)`. -/
inductive MetaVal where
  | mstr (s : String)
  | mint (n : ℤ)
  | mlist (l : List String)
deriving DecidableEq, Repr

/-- A stored S3 object: an opaque pickled binary, or a metadata JSON dict. -/
inductive S3Val where
  | bin (payload : ℕ)
  | meta (md : PyDict MetaVal)
deriving DecidableEq, Repr

abbrev S3Store := PyDict S3Val

/-- `_s3_key` from `model_store.py`. -/
def s3Key (monitor filename : String) : String :=
  "oil-analysis-anomaly-alerts/" ++ monitor ++ "/" ++ filename

/-- Split a character list on `'/'` (for `Path` component extraction). -/
def splitSlash : List Char → List (List Char)
  | [] => [[]]
  | c :: cs =>
    let r := splitSlash cs
    if c = '/' then [] :: r
    else
      match r with
      | h :: t => (c :: h) :: t
      | [] => [[c]]

/-- `Path(vp).name` for a virtual path `"<monitor>/<filename>"`. -/
def pathName (vp : String) : String :=
  String.mk ((splitSlash vp.data).getLastD [])

/-- `Path(vp).parent.name` for a virtual path `"<monitor>/<filename>"`. -/
def pathParentName (vp : String) : String :=
  String.mk (((splitSlash vp.data).dropLast).getLastD [])

example : pathName "7/model.pkl" = "model.pkl" := by decide
example : pathParentName "7/model.pkl" = "7" := by decide

/-- `S3_CLIENT.put_object`: overwrite the key. -/
def putObject (st : S3Store) (k : String) (v : S3Val) : S3Store := (k, v) :: st

/-- `model_exists` from `model_store.py`: a `head_object` on the **model
artifact** key `<monitor>/model.pkl` (there is no `_SUCCESS` marker anywhere in
the store module). -/
def model_exists (st : S3Store) (monitor : String) : Bool :=
  (st.lookup (s3Key monitor "model.pkl")).isSome

/-- The exception classes defined in `app/utils/exceptions.py`. -/
def pipelineExceptionNames : List String :=
  ["PipelineError", "ModelNotFoundError", "ModelLoadError",
   "ModelTrainingError", "TrainingFailedError", "APICallError", "WindowError"]

/-! ## Training core (`app/models/model_builder.py`, `_train_single_monitor`) -/

/-- The metadata dict assembled by `_train_single_monitor` (note: it has **no**
`training_status` key). -/
def trainMetadata (monitor_id parameter_group_id : ℤ) (trained_at : String)
    (rows_used : ℕ) : PyDict MetaVal :=
  [("monitor_id", MetaVal.mint monitor_id),
   ("parameter_group_id", MetaVal.mint parameter_group_id),
   ("trained_at", MetaVal.mstr trained_at),
   ("algorithm", MetaVal.mstr "IsolationForest"),
   ("feature_codes", MetaVal.mlist MODEL_FEATURE_CODES),
   ("feature_names", MetaVal.mlist MODEL_FEATURE_NAMES_ORDERED),
   ("rows_used", MetaVal.mint rows_used),
   ("scaler", MetaVal.mstr "RobustScaler")]

/-- Result of `_train_single_monitor`: either the bundle was persisted
(carrying the metadata, the ordered list of keys written, and the resulting
store), or the routine **returned normally without persisting anything** after
the row filter left zero rows (it logs a warning; it raises nothing). -/
inductive TrainOutcome where
  | trained (metadata : PyDict MetaVal) (writes : List String) (store : S3Store)
  | skippedNoValidRows
deriving Repr, DecidableEq

/-- `_train_single_monitor`: filter rows (strict per-row completeness over the
6 model feature codes), build the ordered training frame, fit (opaque), and
persist `model.pkl`, `scaler.pkl`, `metadata.json` in that order.  The fitted
model and scaler pickles are opaque binaries (tags 0 and 1); `trained_at` is
the wall-clock timestamp parameter. -/
def trainSingleMonitor (st : S3Store) (monitor_id parameter_group_id : ℤ)
    (trained_at : String) (param_rows : List (PyDict PyVal)) : TrainOutcome :=
  let rows := param_rows.filterMap (filterRow MODEL_FEATURE_CODES)
  if rows.isEmpty then TrainOutcome.skippedNoValidRows
  else
    let md := trainMetadata monitor_id parameter_group_id trained_at rows.length
    let m := toString monitor_id
    let k1 := s3Key m "model.pkl"
    let k2 := s3Key m "scaler.pkl"
    let k3 := s3Key m "metadata.json"
    let st3 := putObject (putObject (putObject st k1 (S3Val.bin 0))
      k2 (S3Val.bin 1)) k3 (S3Val.meta md)
    TrainOutcome.trained md [k1, k2, k3] st3

/-! ## Bundle loader (`app/models/model_loader.py`) -/

/-- Loader failures: `ModelNotFoundError` / `ModelLoadError`. -/
inductive LoadErr where
  | modelNotFound
  | modelLoadFailed (reason : String)
deriving DecidableEq, Repr

/-- A loaded bundle: (model pickle tag, scaler pickle tag, metadata dict). -/
abbrev Bundle := ℕ × ℕ × PyDict MetaVal

/-- `load_model_bundle`: existence check via `model_exists`, artifact loads and
deserialization, then the hard metadata guards: `training_status == "SUCCESS"`
and presence of `feature_names`. -/
def load_model_bundle (st : S3Store) (monitor_id : ℤ) : Except LoadErr Bundle :=
  let m := toString monitor_id
  if ¬ model_exists st m then Except.error LoadErr.modelNotFound
  else
    match st.lookup (s3Key m "model.pkl"), st.lookup (s3Key m "scaler.pkl"),
        st.lookup (s3Key m "metadata.json") with
    | some (S3Val.bin mo), some (S3Val.bin sc), some (S3Val.meta md) =>
      if md.lookup "training_status" ≠ some (MetaVal.mstr "SUCCESS") then
        Except.error (LoadErr.modelLoadFailed
          "Model bundle exists but training_status != SUCCESS")
      else if (md.lookup "feature_names").isNone then
        Except.error (LoadErr.modelLoadFailed
          "Invalid metadata: missing feature_names")
      else Except.ok (mo, sc, md)
    | _, _, _ =>
      Except.error (LoadErr.modelLoadFailed "artifact load or deserialization failed")

/-! ## LRU model cache (`app/models/model_cache.py`)

The `OrderedDict` is modelled as an association list in recency order: the
front is the least recently used entry (`popitem(last=False)` pops it), the
back the most recently used. -/

/-- Cache state: capacity and the recency-ordered entries. -/
structure ModelCache (β : Type) where
  max_size : ℕ
  cache : List (ℤ × β)
deriving Repr

/-- `ModelCache.get`: on a hit, `pop` + re-insert at the back (refresh LRU);
on a miss, run the loader (`load_model_bundle`, which may raise), insert at the
back, and evict the front entry if over capacity. -/
def ModelCache.get {ε β : Type} (load : ℤ → Except ε β) (c : ModelCache β)
    (k : ℤ) : Except ε (β × ModelCache β) :=
  match c.cache.lookup k with
  | some b =>
    Except.ok (b, { c with cache := c.cache.filter (fun p => p.1 ≠ k) ++ [(k, b)] })
  | none =>
    match load k with
    | Except.error e => Except.error e
    | Except.ok b =>
      let c1 := c.cache ++ [(k, b)]
      let c2 := if c.max_size < c1.length then c1.drop 1 else c1
      Except.ok (b, { c with cache := c2 })

/-! ## Store key disjointness -/

/-- Two S3 keys for the same monitor agree only if the filenames agree. -/
lemma s3Key_file_inj {m f1 f2 : String} (h : s3Key m f1 = s3Key m f2) :
    f1 = f2 := by
  have hd := congrArg String.data h
  rw [s3Key, s3Key, String.data_append, String.data_append,
    String.data_append, String.data_append] at hd
  exact String.ext (List.append_cancel_left hd)

/-- Distinct filenames give distinct keys under the same monitor. -/
lemma s3Key_ne (m : String) {f1 f2 : String} (h : f1 ≠ f2) :
    s3Key m f1 ≠ s3Key m f2 := fun he => h (s3Key_file_inj he)

/-- A shared concrete raw row in which all 6 model feature codes are present
and numeric. -/
def validRow : PyDict PyVal :=
  MODEL_FEATURE_CODES.map (fun c => (c, PyVal.vnum 1))

/-- The store produced by training monitor 7 from one valid row on an empty
store. -/
def trainedStore7 : S3Store :=
  match trainSingleMonitor [] 7 3 "T" [validRow] with
  | TrainOutcome.trained _ _ st => st
  | TrainOutcome.skippedNoValidRows => []

/-- The ordered write list of the concrete training run of monitor 7. -/
def trainedWrites7 : List String :=
  match trainSingleMonitor [] 7 3 "T" [validRow] with
  | TrainOutcome.trained _ ws _ => ws
  | TrainOutcome.skippedNoValidRows => []

/-- C1: every bundle persisted by `_train_single_monitor` fails to load: the
trainer's metadata has no `training_status` key, while `load_model_bundle`
(and hence `ModelCache.get` on a miss) demands `training_status == "SUCCESS"`
and raises `ModelLoadError`; the load never succeeds, so the loaded metadata
is never compared, contradicting the round-trip property.  (The spec's
round-trip is the evident intent; the trainer/loader metadata schemas are
inconsistent.) -/
theorem c1_trained_bundle_never_loads
    (st : S3Store) (monitor pg : ℤ) (t : String)
    (param_rows : List (PyDict PyVal)) (md : PyDict MetaVal)
    (ws : List String) (st' : S3Store)
    (h : trainSingleMonitor st monitor pg t param_rows
          = TrainOutcome.trained md ws st') :
    md.lookup "training_status" = none ∧
    load_model_bundle st' monitor
      = Except.error (LoadErr.modelLoadFailed
          "Model bundle exists but training_status != SUCCESS") ∧
    ModelCache.get (load_model_bundle st') (ModelCache.mk 32 []) monitor
      = Except.error (LoadErr.modelLoadFailed
          "Model bundle exists but training_status != SUCCESS") := by
  simp only [trainSingleMonitor] at h
  by_cases he : (param_rows.filterMap (filterRow MODEL_FEATURE_CODES)).isEmpty
  · simp [he] at h
  · simp only [he, if_false, Bool.false_eq_true] at h
    injection h with h1 h2 h3
    subst h1
    subst h3
    have hne12 : (s3Key (toString monitor) "model.pkl"
        == s3Key (toString monitor) "scaler.pkl") = false :=
      beq_eq_false_iff_ne.mpr (s3Key_ne _ (by decide))
    have hne13 : (s3Key (toString monitor) "model.pkl"
        == s3Key (toString monitor) "metadata.json") = false :=
      beq_eq_false_iff_ne.mpr (s3Key_ne _ (by decide))
    have hne23 : (s3Key (toString monitor) "scaler.pkl"
        == s3Key (toString monitor) "metadata.json") = false :=
      beq_eq_false_iff_ne.mpr (s3Key_ne _ (by decide))
    have hmd : (trainMetadata monitor pg t
        (param_rows.filterMap (filterRow MODEL_FEATURE_CODES)).length).lookup
          "training_status" = none := by
      simp [trainMetadata, List.lookup]
    refine ⟨hmd, ?_, ?_⟩
    · simp [load_model_bundle, model_exists, putObject, List.lookup,
        hne12, hne13, hne23, hmd]
    · simp [ModelCache.get, List.lookup, load_model_bundle, model_exists,
        putObject, hne12, hne13, hne23, hmd]

/-- C1 witness: monitor 7 trained from one fully-populated row; the persisted
bundle fails to load with `ModelLoadError`. -/
theorem c1_trained_bundle_never_loads_witness :
    (trainMetadata 7 3 "T" 1).lookup "training_status" = none ∧
    load_model_bundle trainedStore7 7
      = Except.error (LoadErr.modelLoadFailed
          "Model bundle exists but training_status != SUCCESS") ∧
    ModelCache.get (load_model_bundle trainedStore7) (ModelCache.mk 32 []) 7
      = Except.error (LoadErr.modelLoadFailed
          "Model bundle exists but training_status != SUCCESS") :=
  c1_trained_bundle_never_loads [] 7 3 "T" [validRow]
    (trainMetadata 7 3 "T" 1) trainedWrites7 trainedStore7 (by decide)

/-! ## C4: success marker and `model_exists` -/

/-- C4 counterexample: a store holding only `model.pkl` (partially written
bundle, no marker anywhere) is reported as trained by `model_exists`, and the
persistence sequence of a successful training ends with `metadata.json` and
contains no `_SUCCESS` key at all — the claim's "partial bundle is reported as
not trained" is false. -/
theorem c4_no_marker_counterexample :
    model_exists (putObject [] (s3Key "7" "model.pkl") (S3Val.bin 0)) "7" = true ∧
    trainedWrites7.getLast? = some (s3Key "7" "metadata.json") ∧
    s3Key "7" "_SUCCESS" ∉ trainedWrites7 := by
  refine ⟨by decide, by decide, ?_⟩
  intro hmem
  have : ("_SUCCESS" : String) = "model.pkl" ∨ ("_SUCCESS" : String) = "scaler.pkl"
      ∨ ("_SUCCESS" : String) = "metadata.json" := by
    have hw : trainedWrites7 = [s3Key "7" "model.pkl", s3Key "7" "scaler.pkl",
        s3Key "7" "metadata.json"] := by decide
    rw [hw] at hmem
    simp only [List.mem_cons, List.not_mem_nil, or_false] at hmem
    rcases hmem with h | h | h
    · exact Or.inl (s3Key_file_inj h)
    · exact Or.inr (Or.inl (s3Key_file_inj h))
    · exact Or.inr (Or.inr (s3Key_file_inj h))
  rcases this with h | h | h <;> simp at h

/-- C4 amended: training persists `model.pkl`, `scaler.pkl`, `metadata.json`
in that order and writes no success marker; `model_exists` decides "model
exists" by checking the **model artifact** `model.pkl`, so a partially written
bundle containing `model.pkl` is reported as trained. -/
theorem c4_exists_checks_model_artifact
    (st : S3Store) (monitor pg : ℤ) (t : String)
    (param_rows : List (PyDict PyVal)) (md : PyDict MetaVal)
    (ws : List String) (st' : S3Store)
    (h : trainSingleMonitor st monitor pg t param_rows
          = TrainOutcome.trained md ws st') :
    ws = [s3Key (toString monitor) "model.pkl",
          s3Key (toString monitor) "scaler.pkl",
          s3Key (toString monitor) "metadata.json"] ∧
    s3Key (toString monitor) "_SUCCESS" ∉ ws ∧
    (∀ (store : S3Store) (m : String),
      model_exists store m = (store.lookup (s3Key m "model.pkl")).isSome) := by
  simp only [trainSingleMonitor] at h
  by_cases he : (param_rows.filterMap (filterRow MODEL_FEATURE_CODES)).isEmpty
  · simp [he] at h
  · simp only [he, if_false, Bool.false_eq_true] at h
    injection h with h1 h2 h3
    subst h2
    refine ⟨rfl, ?_, fun store m => rfl⟩
    intro hmem
    have : ("_SUCCESS" : String) = "model.pkl" ∨ ("_SUCCESS" : String) = "scaler.pkl"
        ∨ ("_SUCCESS" : String) = "metadata.json" := by
      simp only [List.mem_cons, List.not_mem_nil, or_false] at hmem
      rcases hmem with h | h | h
      · exact Or.inl (s3Key_file_inj h)
      · exact Or.inr (Or.inl (s3Key_file_inj h))
      · exact Or.inr (Or.inr (s3Key_file_inj h))
    rcases this with h | h | h <;> simp at h

/-- C4 amended witness: the concrete training run of monitor 7. -/
theorem c4_exists_checks_model_artifact_witness :
    trainedWrites7 = [s3Key "7" "model.pkl", s3Key "7" "scaler.pkl",
      s3Key "7" "metadata.json"] ∧
    s3Key "7" "_SUCCESS" ∉ trainedWrites7 ∧
    (∀ (store : S3Store) (m : String),
      model_exists store m = (store.lookup (s3Key m "model.pkl")).isSome) := by
  have h := c4_exists_checks_model_artifact [] 7 3 "T" [validRow]
    (trainMetadata 7 3 "T" 1) trainedWrites7 trainedStore7 (by decide)
  exact h

/-! ## C7: LRU behaviour of `ModelCache.get`

For the pure LRU behaviour the loader is total (`load` always succeeds);
`ModelCache.getT` is `ModelCache.get` specialised to an infallible loader. -/

/-- `ModelCache.get` with an infallible loader. -/
def ModelCache.getT {β : Type} (load : ℤ → β) (c : ModelCache β) (k : ℤ) :
    β × ModelCache β :=
  match ModelCache.get (fun k => (Except.ok (load k) : Except Empty β)) c k with
  | Except.ok r => r
  | Except.error e => e.elim

/-- Sequential `get` calls (the access sequence of the claim). -/
def runGets {β : Type} (load : ℤ → β) (c : ModelCache β) (ks : List ℤ) :
    ModelCache β :=
  ks.foldl (fun c k => (ModelCache.getT load c k).2) c

lemma getT_hit {β : Type} (load : ℤ → β) (c : ModelCache β) (k : ℤ) (b : β)
    (h : c.cache.lookup k = some b) :
    ModelCache.getT load c k
      = (b, { c with cache := c.cache.filter (fun p => p.1 ≠ k) ++ [(k, b)] }) := by
  simp [ModelCache.getT, ModelCache.get, h]

lemma getT_miss {β : Type} (load : ℤ → β) (c : ModelCache β) (k : ℤ)
    (h : c.cache.lookup k = none) :
    ModelCache.getT load c k
      = (load k, { c with cache :=
          if c.max_size < c.cache.length + 1
          then (c.cache ++ [(k, load k)]).drop 1
          else c.cache ++ [(k, load k)] }) := by
  simp [ModelCache.getT, ModelCache.get, h]

lemma lookup_mapLoad_eq_none {β : Type} (load : ℤ → β) {k : ℤ} {pre : List ℤ}
    (h : k ∉ pre) :
    (pre.map (fun x => (x, load x))).lookup k = none := by
  induction pre with
  | nil => rfl
  | cons a as ih =>
    have hka : (k == a) = false :=
      beq_eq_false_iff_ne.mpr (fun he => h (he ▸ List.mem_cons_self a as))
    simp only [List.map_cons, List.lookup, hka]
    exact ih (fun hm => h (List.mem_cons_of_mem a hm))

lemma lookup_mapLoad_isSome {β : Type} (load : ℤ → β) {k : ℤ} {pre : List ℤ}
    (h : k ∈ pre) :
    ((pre.map (fun x => (x, load x))).lookup k).isSome := by
  induction pre with
  | nil => cases h
  | cons a as ih =>
    by_cases hka : k = a
    · subst hka
      simp [List.lookup]
    · have : (k == a) = false := beq_eq_false_iff_ne.mpr hka
      simp only [List.map_cons, List.lookup, this]
      exact ih (List.mem_of_ne_of_mem hka h)

/-- Accessing a run of fresh (all-distinct, none cached) keys keeps exactly
the last `max` of them, in access order. -/
lemma runGets_fresh {β : Type} (load : ℤ → β) (max : ℕ) :
    ∀ (ks pre : List ℤ), (pre ++ ks).Nodup → pre.length ≤ max →
    runGets load (ModelCache.mk max (pre.map (fun x => (x, load x)))) ks
      = ModelCache.mk max
          (((pre ++ ks).drop (pre.length + ks.length - max)).map
            (fun x => (x, load x))) := by
  intro ks
  induction ks with
  | nil =>
    intro pre hnd hle
    simp [runGets, Nat.sub_eq_zero_of_le hle]
  | cons k ks ih =>
    intro pre hnd hle
    have hdisj : pre.Disjoint (k :: ks) := (List.nodup_append.mp hnd).2.2
    have hk : k ∉ pre := fun hm => hdisj hm (List.mem_cons_self k ks)
    have hlook : (pre.map (fun x => (x, load x))).lookup k = none :=
      lookup_mapLoad_eq_none load hk
    have hstep : runGets load
        (ModelCache.mk max (pre.map (fun x => (x, load x)))) (k :: ks)
        = runGets load
            ((ModelCache.getT load
              (ModelCache.mk max (pre.map (fun x => (x, load x)))) k).2) ks := rfl
    rw [hstep, getT_miss load _ k hlook]
    simp only [List.length_map]
    have hmapapp : pre.map (fun x => (x, load x)) ++ [(k, load k)]
        = (pre ++ [k]).map (fun x => (x, load x)) := by
      simp
    have hacons : (pre ++ [k]) ++ ks = pre ++ k :: ks := by
      rw [List.append_assoc, List.singleton_append]
    have hndapp : ((pre ++ [k]) ++ ks).Nodup := by
      rw [hacons]; exact hnd
    by_cases hcase : max < pre.length + 1
    · have hpre : pre.length = max := Nat.le_antisymm hle (Nat.lt_succ_iff.mp hcase)
      rw [if_pos hcase]
      rw [hmapapp, ← List.map_drop]
      have hnd' : (((pre ++ [k]).drop 1) ++ ks).Nodup := by
        have h2 : (((pre ++ [k]) ++ ks).drop 1).Nodup :=
          (List.drop_sublist 1 _).nodup hndapp
        rwa [List.drop_append_of_le_length (by simp)] at h2
      have hle' : ((pre ++ [k]).drop 1).length ≤ max := by
        simp only [List.length_drop, List.length_append, List.length_cons,
          List.length_nil]
        omega
      rw [ih ((pre ++ [k]).drop 1) hnd' hle']
      congr 2
      have e1 : (pre ++ [k]).drop 1 ++ ks = (pre ++ k :: ks).drop 1 := by
        rw [← List.drop_append_of_le_length (by simp : 1 ≤ (pre ++ [k]).length),
          hacons]
      rw [e1, List.drop_drop]
      congr 1
      simp only [List.length_drop, List.length_append, List.length_cons,
        List.length_nil]
      omega
    · rw [if_neg hcase]
      rw [hmapapp]
      have hnd' : ((pre ++ [k]) ++ ks).Nodup := hndapp
      have hle' : (pre ++ [k]).length ≤ max := by
        simp only [List.length_append, List.length_cons, List.length_nil]
        omega
      rw [ih (pre ++ [k]) hnd' hle']
      congr 2
      rw [hacons]
      congr 1
      simp only [List.length_append, List.length_cons, List.length_nil]
      omega

lemma lookup_some_mem {α β : Type} [BEq α] [LawfulBEq α] :
    ∀ {l : List (α × β)} {k : α} {b : β},
    l.lookup k = some b → (k, b) ∈ l := by
  intro l
  induction l with
  | nil => intro k b h; cases h
  | cons a t ih =>
    intro k b h
    obtain ⟨a1, a2⟩ := a
    cases hbeq : (k == a1) with
    | true =>
      have hk : k = a1 := eq_of_beq hbeq
      subst hk
      rw [List.lookup.eq_def] at h
      simp only [hbeq] at h
      injection h with h
      subst h
      exact List.mem_cons_self _ _
    | false =>
      rw [List.lookup.eq_def] at h
      simp only [hbeq] at h
      exact List.mem_cons_of_mem _ (ih h)

/-- Under distinct keys, removing one key shrinks the list by at most one. -/
lemma filter_ne_length_ge {β : Type} :
    ∀ {l : List (ℤ × β)}, (l.map Prod.fst).Nodup → ∀ k : ℤ,
      l.length - 1 ≤ (l.filter (fun p => p.1 ≠ k)).length := by
  intro l
  induction l with
  | nil => intro _ k; simp
  | cons a t ih =>
    intro hnd k
    obtain ⟨a1, a2⟩ := a
    simp only [List.map_cons, List.nodup_cons] at hnd
    rw [List.filter_cons]
    by_cases hk : a1 = k
    · subst hk
      rw [if_neg (by simp)]
      have hall : t.filter (fun p => decide (¬ p.1 = a1)) = t :=
        List.filter_eq_self.mpr fun x hx => by
          simp only [decide_eq_true_eq]
          intro he
          exact hnd.1 (he ▸ List.mem_map_of_mem Prod.fst hx)
      simp only [ne_eq, List.length_cons]
      rw [hall]
      omega
    · rw [if_pos (by simpa using hk)]
      have := ih hnd.2 k
      simp only [List.length_cons]
      omega

/-- C7: LRU behaviour of `ModelCache.get`.  After `C+1` distinct accesses on
an initially empty cache of capacity `C ≥ 1`, the first (least recently
accessed) key is evicted and absent, every other key is present; every `get`
keeps the size within capacity; and re-accessing a cached key moves it off the
eviction-candidate (front) slot whenever the cache has another entry. -/
theorem c7_lru_cache {β : Type} (load : ℤ → β) (C : ℕ) (_hC : 1 ≤ C)
    (k0 : ℤ) (rest : List ℤ) (hlen : rest.length = C)
    (hnd : (k0 :: rest).Nodup) :
    ((runGets load (ModelCache.mk C []) (k0 :: rest)).cache.lookup k0 = none) ∧
    (∀ k ∈ rest,
      ((runGets load (ModelCache.mk C []) (k0 :: rest)).cache.lookup k).isSome) ∧
    (∀ (c : ModelCache β) (k : ℤ), c.cache.length ≤ c.max_size →
      ((ModelCache.getT load c k).2).cache.length ≤ c.max_size) ∧
    (∀ (c : ModelCache β) (k : ℤ) (b : β), (c.cache.map Prod.fst).Nodup →
      c.cache.lookup k = some b → 2 ≤ c.cache.length →
      ∀ p, ((ModelCache.getT load c k).2).cache.head? = some p → p.1 ≠ k) := by
  have hrun : runGets load (ModelCache.mk C []) (k0 :: rest)
      = ModelCache.mk C (rest.map (fun x => (x, load x))) := by
    have h := runGets_fresh load C (k0 :: rest) [] (by simpa using hnd) (by simp)
    simp only [List.map_nil, List.nil_append, List.length_nil, List.length_cons,
      Nat.zero_add] at h
    rw [h]
    congr 1
    rw [hlen]
    simp [Nat.succ_sub (le_refl C), Nat.sub_self]
  have hk0 : k0 ∉ rest := (List.nodup_cons.mp hnd).1
  refine ⟨?_, ?_, ?_, ?_⟩
  · rw [hrun]
    exact lookup_mapLoad_eq_none load hk0
  · intro k hk
    rw [hrun]
    exact lookup_mapLoad_isSome load hk
  · intro c k hle
    cases hl : c.cache.lookup k with
    | some b =>
      rw [getT_hit load c k b hl]
      simp only [List.length_append, List.length_cons, List.length_nil]
      have hmem : (k, b) ∈ c.cache := lookup_some_mem hl
      have hlt : (c.cache.filter (fun p => p.1 ≠ k)).length < c.cache.length :=
        List.length_filter_lt_length_iff_exists.mpr
          ⟨(k, b), hmem, by simp⟩
      omega
    | none =>
      rw [getT_miss load c k hl]
      by_cases hover : c.max_size < c.cache.length + 1
      · rw [if_pos hover]
        simp only [List.length_drop, List.length_append, List.length_cons,
          List.length_nil]
        omega
      · rw [if_neg hover]
        simp only [List.length_append, List.length_cons, List.length_nil]
        omega
  · intro c k b hndk hl hlen2 p hp
    rw [getT_hit load c k b hl] at hp
    have hflen : 1 ≤ (c.cache.filter (fun q => q.1 ≠ k)).length := by
      have := filter_ne_length_ge hndk k
      omega
    have hne : c.cache.filter (fun q => q.1 ≠ k) ≠ [] :=
      List.ne_nil_of_length_pos hflen
    rw [List.head?_append_of_ne_nil _ hne] at hp
    have hpmem : p ∈ c.cache.filter (fun q => q.1 ≠ k) :=
      List.mem_of_mem_head? hp
    have := (List.mem_filter.mp hpmem).2
    simpa using this

/-- C7 witness: capacity 2, accesses 1, 2, 3; key 1 is evicted, 2 and 3
remain, the bound and recency-reset statements instantiated. -/
theorem c7_lru_cache_witness :
    ((runGets (fun k : ℤ => k) (ModelCache.mk 2 []) (1 :: [2, 3])).cache.lookup 1
      = none) ∧
    (∀ k ∈ [(2 : ℤ), 3],
      ((runGets (fun k : ℤ => k) (ModelCache.mk 2 []) (1 :: [2, 3])).cache.lookup
        k).isSome) ∧
    (∀ (c : ModelCache ℤ) (k : ℤ), c.cache.length ≤ c.max_size →
      ((ModelCache.getT (fun k : ℤ => k) c k).2).cache.length ≤ c.max_size) ∧
    (∀ (c : ModelCache ℤ) (k : ℤ) (b : ℤ), (c.cache.map Prod.fst).Nodup →
      c.cache.lookup k = some b → 2 ≤ c.cache.length →
      ∀ p, ((ModelCache.getT (fun k : ℤ => k) c k).2).cache.head? = some p →
        p.1 ≠ k) :=
  c7_lru_cache (fun k => k) 2 (by decide) 1 [2, 3] (by decide) (by decide)

/-! ## Flink operator (`app/flink/operators.py`)

One `flat_map` call is embedded as a step function over the operator's
per-monitor state.  The external effects consulted during one call (device
resolution, `model_exists`, the training call, the cache load, detection) are
supplied by a per-record oracle `StepEnv`; the worker processes records
strictly sequentially, so one step runs to completion before the next. -/

/-- A parsed inbound record: optional `DEVICEID` (`none` models a missing,
null or empty id — all falsy in `if not device_id`) and the
`PROCESS_PARAMETER` map. -/
structure Rec where
  deviceId : Option String
  params : PyDict PyVal
deriving DecidableEq, Repr

/-- Module-level names defined by `app/models/model_builder.py`. -/
def modelBuilderDefinedNames : List String :=
  ["build_model_for_parameter_group", "build_model_for_device",
   "build_model_for_monitor", "_train_single_monitor"]

/-- The name `operators.py` line 13 imports from `app.models.model_builder`. -/
def operatorsModelBuilderImport : String := "build_model_for_device_v2"

/-- Methods defined by `DeviceAPIClient` (`app/api/device_api_client.py`). -/
def deviceAPIClientMethods : List String :=
  ["__init__", "get_monitor_id", "get_monitor_and_pg"]

/-- The method name `flat_map` invokes on `self.device_client`. -/
def operatorResolutionMethod : String := "get_monitor_id_runtime"

/-- Attribute lookup of `get_monitor_id_runtime` on `DeviceAPIClient`: the
class defines no such method, so the call raises `AttributeError` for every
record (the `ok` branch is unreachable). -/
def resolveRuntime (_device_id : String) : Except Unit ℤ :=
  if operatorResolutionMethod ∈ deviceAPIClientMethods
  then Except.ok 0
  else Except.error ()

/-- Per-monitor training lifecycle states (stored as strings in Python; a
monitor absent from the dict reads as `NOT_STARTED` via `.get` default). -/
inductive TState where
  | notStarted
  | inProgress
  | ready
  | failed
deriving DecidableEq, Repr

/-- Operator state: per-monitor sliding-window buffers and training states. -/
structure OpState where
  windows : List (ℤ × List Rec)
  training : List (ℤ × TState)
deriving DecidableEq, Repr

/-- Dict assignment `d[k] = v`. -/
def setAssoc {β : Type} (l : List (ℤ × β)) (k : ℤ) (v : β) : List (ℤ × β) :=
  (k, v) :: l.filter (fun p => p.1 ≠ k)

/-- Oracle for the external effects of one `flat_map` call. -/
structure StepEnv where
  modelExistsPre : Bool
  trainRaises : Bool
  modelExistsPost : Bool
  loadResult : Except Unit (PyDict MetaVal)
  alignRaises : Bool
  detectRaises : Bool
  detectResult : Bool × List ℕ
deriving Repr

/-- Python truthiness of `metadata.get("feature_names")`
(`if not feature_names`). -/
def metaTruthy : Option MetaVal → Bool
  | none => false
  | some (MetaVal.mstr s) => !s.isEmpty
  | some (MetaVal.mint n) => n != 0
  | some (MetaVal.mlist l) => !l.isEmpty

/-- The alert payload built by `_format_alert`. -/
structure Alert where
  monitorId : ℤ
  isAnomaly : Bool
  indices : List ℕ
  modelMetadata : PyDict MetaVal
deriving DecidableEq, Repr

/-- Result of one `flat_map` call: new state, yielded alerts, monitors for
which the training routine was invoked during the call, and whether an
uncaught exception escaped the call (possible only in `_align_features`,
which is outside every `try` block). -/
structure StepOut where
  state : OpState
  alerts : List Alert
  trained : List ℤ
  raised : Bool
deriving Repr

/-- `deque(maxlen=window_size).append(record)`. -/
def windowAdd (window_size : ℕ) (buf : List Rec) (r : Rec) : List Rec :=
  let b := buf ++ [r]
  if window_size < b.length then b.drop 1 else b

/-- Lines 136–198 of `flat_map`: window setup, add, fullness check, cache
load, metadata guard, alignment, inference, slide, alert. -/
def windowPhase (window_size slide_size : ℕ) (env : StepEnv) (s : OpState)
    (monitor_id : ℤ) (record : Rec) (trained : List ℤ) : StepOut :=
  let buf0 := (s.windows.lookup monitor_id).getD []
  let buf1 := windowAdd window_size buf0 record
  let s1 : OpState := { s with windows := setAssoc s.windows monitor_id buf1 }
  if buf1.length ≠ window_size then ⟨s1, [], trained, false⟩
  else
    let slid : OpState :=
      { s1 with windows := setAssoc s1.windows monitor_id (buf1.drop slide_size) }
    match env.loadResult with
    | Except.error _ => ⟨slid, [], trained, false⟩
    | Except.ok metadata =>
      if metaTruthy (metadata.lookup "feature_names") = false then
        ⟨slid, [], trained, false⟩
      else if env.alignRaises then ⟨s1, [], trained, true⟩
      else if env.detectRaises then ⟨slid, [], trained, false⟩
      else if env.detectResult.1 then
        ⟨slid, [Alert.mk monitor_id true env.detectResult.2 metadata], trained, false⟩
      else ⟨slid, [], trained, false⟩

/-- One `flat_map` call (`operators.py` lines 52–198). -/
def step (window_size slide_size : ℕ) (resolve : String → Except Unit ℤ)
    (env : StepEnv) (s : OpState) (input : Option Rec) : StepOut :=
  match input with
  | none => ⟨s, [], [], false⟩
  | some record =>
    match record.deviceId with
    | none => ⟨s, [], [], false⟩
    | some device_id =>
      match resolve device_id with
      | Except.error _ => ⟨s, [], [], false⟩
      | Except.ok monitor_id =>
        match (s.training.lookup monitor_id).getD TState.notStarted with
        | TState.inProgress => ⟨s, [], [], false⟩
        | TState.failed => ⟨s, [], [], false⟩
        | TState.ready => windowPhase window_size slide_size env s monitor_id record []
        | TState.notStarted =>
          if env.modelExistsPre then
            windowPhase window_size slide_size env
              { s with training := setAssoc s.training monitor_id TState.ready }
              monitor_id record []
          else
            -- the stored IN_PROGRESS is transient within the call: it is
            -- overwritten with READY or FAILED before the call returns
            if env.trainRaises then
              ⟨{ s with training := setAssoc s.training monitor_id TState.failed },
                [], [monitor_id], false⟩
            else if env.modelExistsPost then
              windowPhase window_size slide_size env
                { s with training := setAssoc s.training monitor_id TState.ready }
                monitor_id record [monitor_id]
            else
              ⟨{ s with training := setAssoc s.training monitor_id TState.failed },
                [], [monitor_id], false⟩

/-- A whole run: sequential `flat_map` calls, collecting the monitors whose
training routine was invoked. -/
def runSteps (window_size slide_size : ℕ) (resolve : String → Except Unit ℤ)
    (s : OpState) (inputs : List (StepEnv × Option Rec)) : OpState × List ℤ :=
  inputs.foldl
    (fun acc p =>
      let out := step window_size slide_size resolve p.1 acc.1 p.2
      (out.state, acc.2 ++ out.trained))
    (s, [])

/-- C2: `operators.py` imports `build_model_for_device_v2`, a name
`model_builder` does not define (the module import fails), and `flat_map`
resolves devices through `get_monitor_id_runtime`, a method `DeviceAPIClient`
does not define — so resolution raises for every record, every record is
dropped with no state change, and no alert, training call or scoring is ever
reached. -/
theorem c2_operator_never_trains_or_alerts :
    operatorsModelBuilderImport ∉ modelBuilderDefinedNames ∧
    operatorResolutionMethod ∉ deviceAPIClientMethods ∧
    ∀ (window_size slide_size : ℕ) (env : StepEnv) (s : OpState)
      (input : Option Rec),
      step window_size slide_size resolveRuntime env s input
        = StepOut.mk s [] [] false := by
  refine ⟨by decide, by decide, ?_⟩
  intro ws ss env s input
  cases input with
  | none => rfl
  | some record =>
    cases hd : record.deviceId with
    | none => simp [step, hd]
    | some d =>
      have hres : resolveRuntime d = Except.error () := rfl
      simp [step, hd, hres]

/-! ## C3: the train-once lifecycle state machine -/

/-- The monitor's lifecycle has terminally resolved (READY or FAILED). -/
def terminalFor (m : ℤ) (s : OpState) : Prop :=
  s.training.lookup m = some TState.ready ∨
  s.training.lookup m = some TState.failed

/-- Reachable-state invariant: a stored training state is always READY or
FAILED (NOT_STARTED is never stored; IN_PROGRESS is transient within a
call). -/
def TrainInv (s : OpState) : Prop :=
  ∀ m : ℤ, s.training.lookup m = none ∨ terminalFor m s

lemma lookup_cons_self {α β : Type} [BEq α] [LawfulBEq α] (k : α) (v : β)
    (t : List (α × β)) : List.lookup k ((k, v) :: t) = some v := by
  show (match k == k with
    | true => some v
    | false => List.lookup k t) = some v
  rw [beq_self_eq_true]

lemma lookup_cons_ne {α β : Type} [BEq α] [LawfulBEq α] {m k : α} (h : m ≠ k)
    (v : β) (t : List (α × β)) :
    List.lookup m ((k, v) :: t) = List.lookup m t := by
  show (match m == k with
    | true => some v
    | false => List.lookup m t) = List.lookup m t
  rw [beq_eq_false_iff_ne.mpr h]

lemma lookup_filter_ne {β : Type} (k m : ℤ) (h : m ≠ k) :
    ∀ l : List (ℤ × β),
      (l.filter (fun p => p.1 ≠ k)).lookup m = l.lookup m := by
  intro l
  induction l with
  | nil => rfl
  | cons a t ih =>
    obtain ⟨a1, a2⟩ := a
    by_cases hak : a1 = k
    · rw [List.filter_cons, if_neg (by simp [hak])]
      rw [ih, lookup_cons_ne (by rw [hak]; exact h)]
    · rw [List.filter_cons, if_pos (decide_eq_true hak)]
      by_cases hma : m = a1
      · subst hma
        rw [lookup_cons_self, lookup_cons_self]
      · rw [lookup_cons_ne hma, lookup_cons_ne hma]
        exact ih

lemma setAssoc_lookup_self {β : Type} (l : List (ℤ × β)) (k : ℤ) (v : β) :
    (setAssoc l k v).lookup k = some v := by
  simp [setAssoc, List.lookup]

lemma setAssoc_lookup_ne {β : Type} (l : List (ℤ × β)) (k : ℤ) (v : β)
    {m : ℤ} (h : m ≠ k) :
    (setAssoc l k v).lookup m = l.lookup m := by
  rw [setAssoc, List.lookup.eq_def]
  have hb : (m == k) = false := beq_eq_false_iff_ne.mpr h
  simp only [hb]
  exact lookup_filter_ne k m h l

/-- The windowing phase never touches training state and passes the `trained`
accumulator through unchanged. -/
lemma windowPhase_training (ws ss : ℕ) (env : StepEnv) (s : OpState) (m : ℤ)
    (r : Rec) (tr : List ℤ) :
    (windowPhase ws ss env s m r tr).state.training = s.training ∧
    (windowPhase ws ss env s m r tr).trained = tr := by
  simp only [windowPhase]
  repeat' split
  all_goals exact ⟨rfl, rfl⟩

/-- Decidability of terminality (used for the counting bound). -/
instance (m : ℤ) (s : OpState) : Decidable (terminalFor m s) := by
  unfold terminalFor
  infer_instance

/-- Training is invoked only when the monitor reads as NOT_STARTED. -/
lemma step_trained_source (ws ss : ℕ) (resolve : String → Except Unit ℤ)
    (env : StepEnv) (s : OpState) (input : Option Rec) (m : ℤ)
    (hm : m ∈ (step ws ss resolve env s input).trained) :
    (s.training.lookup m).getD TState.notStarted = TState.notStarted := by
  cases input with
  | none => exact absurd hm (List.not_mem_nil m)
  | some record =>
    simp only [step] at hm
    cases hd : record.deviceId with
    | none => simp only [hd] at hm; exact absurd hm (List.not_mem_nil m)
    | some d =>
      simp only [hd] at hm
      cases hr : resolve d with
      | error e => simp only [hr] at hm; exact absurd hm (List.not_mem_nil m)
      | ok mr =>
        simp only [hr] at hm
        cases hst : (s.training.lookup mr).getD TState.notStarted with
        | inProgress => simp only [hst] at hm; exact absurd hm (List.not_mem_nil m)
        | failed => simp only [hst] at hm; exact absurd hm (List.not_mem_nil m)
        | ready =>
          simp only [hst] at hm
          rw [(windowPhase_training ws ss env s mr record []).2] at hm
          exact absurd hm (List.not_mem_nil m)
        | notStarted =>
          simp only [hst] at hm
          cases hpre : env.modelExistsPre with
          | true =>
            simp only [hpre, if_true] at hm
            rw [(windowPhase_training ws ss env _ mr record []).2] at hm
            exact absurd hm (List.not_mem_nil m)
          | false =>
            simp only [hpre, Bool.false_eq_true, if_false] at hm
            cases htr : env.trainRaises with
            | true =>
              simp only [htr, if_true] at hm
              rcases List.mem_singleton.mp hm with rfl
              exact hst
            | false =>
              simp only [htr, Bool.false_eq_true, if_false] at hm
              cases hpost : env.modelExistsPost with
              | true =>
                simp only [hpost, if_true] at hm
                rw [(windowPhase_training ws ss env _ mr record [mr]).2] at hm
                rcases List.mem_singleton.mp hm with rfl
                exact hst
              | false =>
                simp only [hpost, Bool.false_eq_true, if_false] at hm
                rcases List.mem_singleton.mp hm with rfl
                exact hst

/-- After a step that invoked training for `m`, the monitor is terminal. -/
lemma step_trained_terminal (ws ss : ℕ) (resolve : String → Except Unit ℤ)
    (env : StepEnv) (s : OpState) (input : Option Rec) (m : ℤ)
    (hm : m ∈ (step ws ss resolve env s input).trained) :
    terminalFor m (step ws ss resolve env s input).state := by
  cases input with
  | none => exact absurd hm (List.not_mem_nil m)
  | some record =>
    simp only [step] at hm ⊢
    cases hd : record.deviceId with
    | none => simp only [hd] at hm; exact absurd hm (List.not_mem_nil m)
    | some d =>
      simp only [hd] at hm ⊢
      cases hr : resolve d with
      | error e => simp only [hr] at hm; exact absurd hm (List.not_mem_nil m)
      | ok mr =>
        simp only [hr] at hm ⊢
        cases hst : (s.training.lookup mr).getD TState.notStarted with
        | inProgress => simp only [hst] at hm; exact absurd hm (List.not_mem_nil m)
        | failed => simp only [hst] at hm; exact absurd hm (List.not_mem_nil m)
        | ready =>
          simp only [hst] at hm
          rw [(windowPhase_training ws ss env s mr record []).2] at hm
          exact absurd hm (List.not_mem_nil m)
        | notStarted =>
          simp only [hst] at hm ⊢
          cases hpre : env.modelExistsPre with
          | true =>
            simp only [hpre, if_true] at hm
            rw [(windowPhase_training ws ss env _ mr record []).2] at hm
            exact absurd hm (List.not_mem_nil m)
          | false =>
            simp only [hpre, Bool.false_eq_true, if_false] at hm ⊢
            cases htr : env.trainRaises with
            | true =>
              simp only [htr, if_true] at hm ⊢
              rcases List.mem_singleton.mp hm with rfl
              right
              exact setAssoc_lookup_self s.training m TState.failed
            | false =>
              simp only [htr, Bool.false_eq_true, if_false] at hm ⊢
              cases hpost : env.modelExistsPost with
              | true =>
                simp only [hpost, if_true] at hm ⊢
                rw [(windowPhase_training ws ss env _ mr record [mr]).2] at hm
                rcases List.mem_singleton.mp hm with rfl
                left
                rw [(windowPhase_training ws ss env _ m record [m]).1]
                exact setAssoc_lookup_self s.training m TState.ready
              | false =>
                simp only [hpost, Bool.false_eq_true, if_false] at hm ⊢
                rcases List.mem_singleton.mp hm with rfl
                right
                exact setAssoc_lookup_self s.training m TState.failed

/-- At most one training call happens in a single step. -/
lemma step_trained_short (ws ss : ℕ) (resolve : String → Except Unit ℤ)
    (env : StepEnv) (s : OpState) (input : Option Rec) :
    (step ws ss resolve env s input).trained.length ≤ 1 := by
  cases input with
  | none => exact Nat.zero_le 1
  | some record =>
    simp only [step]
    cases hd : record.deviceId with
    | none => simp
    | some d =>
      simp only [hd]
      cases hr : resolve d with
      | error e => simp
      | ok mr =>
        simp only [hr]
        cases hst : (s.training.lookup mr).getD TState.notStarted with
        | inProgress => simp
        | failed => simp
        | ready =>
          simp only []
          rw [(windowPhase_training ws ss env s mr record []).2]
          simp
        | notStarted =>
          simp only []
          cases hpre : env.modelExistsPre with
          | true =>
            simp only [hpre, if_true]
            rw [(windowPhase_training ws ss env _ mr record []).2]
            simp
          | false =>
            simp only [hpre, Bool.false_eq_true, if_false]
            cases htr : env.trainRaises with
            | true => simp [htr]
            | false =>
              simp only [htr, Bool.false_eq_true, if_false]
              cases hpost : env.modelExistsPost with
              | true =>
                simp only [hpost, if_true]
                rw [(windowPhase_training ws ss env _ mr record [mr]).2]
                simp
              | false => simp [hpost]

/-- READY and FAILED are terminal: no step changes them. -/
lemma step_terminal_persist (ws ss : ℕ) (resolve : String → Except Unit ℤ)
    (env : StepEnv) (s : OpState) (input : Option Rec) (m : ℤ) (v : TState)
    (hv : v = TState.ready ∨ v = TState.failed)
    (h : s.training.lookup m = some v) :
    (step ws ss resolve env s input).state.training.lookup m = some v := by
  cases input with
  | none => exact h
  | some record =>
    simp only [step]
    cases hd : record.deviceId with
    | none => exact h
    | some d =>
      simp only [hd]
      cases hr : resolve d with
      | error e => exact h
      | ok mr =>
        simp only [hr]
        cases hst : (s.training.lookup mr).getD TState.notStarted with
        | inProgress => exact h
        | failed => exact h
        | ready =>
          simp only []
          rw [(windowPhase_training ws ss env s mr record []).1]
          exact h
        | notStarted =>
          have hmm : m ≠ mr := by
            intro he
            subst he
            rw [h] at hst
            simp only [Option.getD_some] at hst
            rcases hv with rfl | rfl <;> cases hst
          simp only []
          cases hpre : env.modelExistsPre with
          | true =>
            simp only [hpre, if_true]
            rw [(windowPhase_training ws ss env _ mr record []).1]
            rw [setAssoc_lookup_ne s.training mr TState.ready hmm]
            exact h
          | false =>
            simp only [hpre, Bool.false_eq_true, if_false]
            cases htr : env.trainRaises with
            | true =>
              simp only [htr, if_true]
              rw [setAssoc_lookup_ne s.training mr TState.failed hmm]
              exact h
            | false =>
              simp only [htr, Bool.false_eq_true, if_false]
              cases hpost : env.modelExistsPost with
              | true =>
                simp only [hpost, if_true]
                rw [(windowPhase_training ws ss env _ mr record [mr]).1]
                rw [setAssoc_lookup_ne s.training mr TState.ready hmm]
                exact h
              | false =>
                simp only [hpost, Bool.false_eq_true, if_false]
                rw [setAssoc_lookup_ne s.training mr TState.failed hmm]
                exact h

/-- The reachable-state invariant is preserved by every step. -/
lemma step_preserves_inv (ws ss : ℕ) (resolve : String → Except Unit ℤ)
    (env : StepEnv) (s : OpState) (input : Option Rec)
    (hinv : TrainInv s) : TrainInv (step ws ss resolve env s input).state := by
  intro m
  unfold terminalFor
  cases input with
  | none => exact hinv m
  | some record =>
    simp only [step]
    cases hd : record.deviceId with
    | none => exact hinv m
    | some d =>
      simp only [hd]
      cases hr : resolve d with
      | error e => exact hinv m
      | ok mr =>
        simp only [hr]
        cases hst : (s.training.lookup mr).getD TState.notStarted with
        | inProgress => exact hinv m
        | failed => exact hinv m
        | ready =>
          simp only []
          rw [(windowPhase_training ws ss env s mr record []).1]
          exact hinv m
        | notStarted =>
          simp only []
          by_cases hmm : m = mr
          · subst hmm
            cases hpre : env.modelExistsPre with
            | true =>
              simp only [hpre, if_true]
              rw [(windowPhase_training ws ss env _ m record []).1]
              rw [setAssoc_lookup_self s.training m TState.ready]
              right
              left
              rfl
            | false =>
              simp only [hpre, Bool.false_eq_true, if_false]
              cases htr : env.trainRaises with
              | true =>
                simp only [htr, if_true]
                rw [setAssoc_lookup_self s.training m TState.failed]
                right
                right
                rfl
              | false =>
                simp only [htr, Bool.false_eq_true, if_false]
                cases hpost : env.modelExistsPost with
                | true =>
                  simp only [hpost, if_true]
                  rw [(windowPhase_training ws ss env _ m record [m]).1]
                  rw [setAssoc_lookup_self s.training m TState.ready]
                  right
                  left
                  rfl
                | false =>
                  simp only [hpost, Bool.false_eq_true, if_false]
                  rw [setAssoc_lookup_self s.training m TState.failed]
                  right
                  right
                  rfl
          · have hpres : ∀ (v : TState),
                (setAssoc s.training mr v).lookup m = s.training.lookup m :=
              fun v => setAssoc_lookup_ne s.training mr v hmm
            cases hpre : env.modelExistsPre with
            | true =>
              simp only [hpre, if_true]
              rw [(windowPhase_training ws ss env _ mr record []).1, hpres]
              exact hinv m
            | false =>
              simp only [hpre, Bool.false_eq_true, if_false]
              cases htr : env.trainRaises with
              | true =>
                simp only [htr, if_true]
                rw [hpres]
                exact hinv m
              | false =>
                simp only [htr, Bool.false_eq_true, if_false]
                cases hpost : env.modelExistsPost with
                | true =>
                  simp only [hpost, if_true]
                  rw [(windowPhase_training ws ss env _ mr record [mr]).1, hpres]
                  exact hinv m
                | false =>
                  simp only [hpost, Bool.false_eq_true, if_false]
                  rw [hpres]
                  exact hinv m

/-- The per-monitor training-invocation trace of a run. -/
def trainTrace (ws ss : ℕ) (resolve : String → Except Unit ℤ) :
    OpState → List (StepEnv × Option Rec) → List ℤ
  | _, [] => []
  | s, (env, inp) :: rest =>
    (step ws ss resolve env s inp).trained ++
      trainTrace ws ss resolve (step ws ss resolve env s inp).state rest

lemma runSteps_snd (ws ss : ℕ) (resolve : String → Except Unit ℤ) :
    ∀ (inputs : List (StepEnv × Option Rec)) (s : OpState) (acc : List ℤ),
      (inputs.foldl
        (fun acc p =>
          let out := step ws ss resolve p.1 acc.1 p.2
          (out.state, acc.2 ++ out.trained))
        (s, acc)).2
        = acc ++ trainTrace ws ss resolve s inputs := by
  intro inputs
  induction inputs with
  | nil => intro s acc; simp [trainTrace]
  | cons p rest ih =>
    intro s acc
    obtain ⟨env, inp⟩ := p
    simp only [List.foldl_cons, trainTrace]
    rw [ih]
    rw [List.append_assoc]

/-- Counting bound: starting from an invariant state, a monitor is trained at
most once over any run, and never once terminal. -/
lemma trace_count_le (ws ss : ℕ) (resolve : String → Except Unit ℤ) (m : ℤ) :
    ∀ (inputs : List (StepEnv × Option Rec)) (s : OpState), TrainInv s →
      (trainTrace ws ss resolve s inputs).count m
        ≤ if terminalFor m s then 0 else 1 := by
  intro inputs
  induction inputs with
  | nil =>
    intro s _
    simp only [trainTrace, List.count_nil]
    split <;> omega
  | cons p rest ih =>
    intro s hinv
    obtain ⟨env, inp⟩ := p
    simp only [trainTrace, List.count_append]
    have hinv' : TrainInv (step ws ss resolve env s inp).state :=
      step_preserves_inv ws ss resolve env s inp hinv
    by_cases hmem : m ∈ (step ws ss resolve env s inp).trained
    · have hsrc := step_trained_source ws ss resolve env s inp m hmem
      have hnt : ¬ terminalFor m s := by
        intro ht
        rcases ht with h | h <;> rw [h] at hsrc <;> cases hsrc
      rw [if_neg hnt]
      have hterm' : terminalFor m (step ws ss resolve env s inp).state :=
        step_trained_terminal ws ss resolve env s inp m hmem
      have h2 := ih (step ws ss resolve env s inp).state hinv'
      rw [if_pos hterm'] at h2
      have h1 : ((step ws ss resolve env s inp).trained.count m) ≤ 1 :=
        le_trans (List.count_le_length m _)
          (step_trained_short ws ss resolve env s inp)
      omega
    · have h1 : ((step ws ss resolve env s inp).trained.count m) = 0 :=
        List.count_eq_zero.mpr hmem
      have h2 := ih (step ws ss resolve env s inp).state hinv'
      by_cases hterm : terminalFor m s
      · have hterm' : terminalFor m (step ws ss resolve env s inp).state := by
          rcases hterm with h | h
          · exact Or.inl (step_terminal_persist ws ss resolve env s inp m
              TState.ready (Or.inl rfl) h)
          · exact Or.inr (step_terminal_persist ws ss resolve env s inp m
              TState.failed (Or.inr rfl) h)
        rw [if_pos hterm]
        rw [if_pos hterm'] at h2
        omega
      · rw [if_neg hterm]
        have : (trainTrace ws ss resolve (step ws ss resolve env s inp).state
            rest).count m ≤ 1 := by
          refine le_trans h2 ?_
          split <;> omega
        omega

/-- C3: the train-once lifecycle.  (a) Over any run from the initial (empty)
operator state, the training routine is invoked at most once per monitor;
(b) a step invokes training only when the monitor reads NOT_STARTED;
(c) a record arriving while the monitor is stored IN_PROGRESS or FAILED is
dropped with no state change, no window add, no alert; (d) READY and FAILED
are terminal — no later step ever changes them. -/
theorem c3_train_once
    (window_size slide_size : ℕ) (resolve : String → Except Unit ℤ) :
    (∀ (inputs : List (StepEnv × Option Rec)) (m : ℤ),
      ((runSteps window_size slide_size resolve (OpState.mk [] []) inputs).2.count
        m) ≤ 1) ∧
    (∀ (env : StepEnv) (s : OpState) (input : Option Rec) (m : ℤ),
      m ∈ (step window_size slide_size resolve env s input).trained →
      (s.training.lookup m).getD TState.notStarted = TState.notStarted) ∧
    (∀ (env : StepEnv) (s : OpState) (record : Rec) (d : String) (m : ℤ),
      record.deviceId = some d → resolve d = Except.ok m →
      (s.training.lookup m = some TState.inProgress ∨
       s.training.lookup m = some TState.failed) →
      step window_size slide_size resolve env s (some record)
        = StepOut.mk s [] [] false) ∧
    (∀ (env : StepEnv) (s : OpState) (input : Option Rec) (m : ℤ)
      (v : TState), v = TState.ready ∨ v = TState.failed →
      s.training.lookup m = some v →
      (step window_size slide_size resolve env s input).state.training.lookup m
        = some v) := by
  refine ⟨?_, ?_, ?_, ?_⟩
  · intro inputs m
    rw [runSteps, runSteps_snd window_size slide_size resolve inputs _ []]
    have hinv : TrainInv (OpState.mk [] []) := fun m => Or.inl rfl
    have h := trace_count_le window_size slide_size resolve m inputs _ hinv
    refine le_trans (by simpa using h) ?_
    split <;> omega
  · exact fun env s input m hm =>
      step_trained_source window_size slide_size resolve env s input m hm
  · intro env s record d m hd hr hstored
    simp only [step, hd, hr]
    rcases hstored with h | h <;> rw [h] <;> rfl
  · exact fun env s input m v hv h =>
      step_terminal_persist window_size slide_size resolve env s input m v hv h

/-- Concrete oracle: training raises; model never exists. -/
def c3Env : StepEnv :=
  StepEnv.mk false true false (Except.error ()) false false (false, [])

/-- Concrete record with a device id. -/
def c3Rec : Rec := Rec.mk (some "d") []

/-- C3 witness: two records for monitor 5 on a fresh operator; the training
routine runs once; a stored FAILED monitor drops the record unchanged; a
stored READY monitor stays READY. -/
theorem c3_train_once_witness :
    ((runSteps 2 1 (fun _ => Except.ok 5) (OpState.mk [] [])
        [(c3Env, some c3Rec), (c3Env, some c3Rec)]).2.count 5 ≤ 1) ∧
    (((OpState.mk [] []).training.lookup 5).getD TState.notStarted
      = TState.notStarted) ∧
    (step 2 1 (fun _ => Except.ok 5) c3Env
        (OpState.mk [] [(5, TState.failed)]) (some c3Rec)
      = StepOut.mk (OpState.mk [] [(5, TState.failed)]) [] [] false) ∧
    ((step 2 1 (fun _ => Except.ok 5) c3Env
        (OpState.mk [] [(5, TState.ready)])
        (some c3Rec)).state.training.lookup 5 = some TState.ready) := by
  have h := c3_train_once 2 1 (fun _ => Except.ok 5)
  refine ⟨h.1 [(c3Env, some c3Rec), (c3Env, some c3Rec)] 5, ?_, ?_, ?_⟩
  · exact h.2.1 c3Env (OpState.mk [] []) (some c3Rec) 5 (by decide)
  · exact h.2.2.1 c3Env (OpState.mk [] [(5, TState.failed)]) c3Rec "d" 5 rfl rfl
      (Or.inr (by decide))
  · exact h.2.2.2 c3Env (OpState.mk [] [(5, TState.ready)]) (some c3Rec) 5
      TState.ready (Or.inl rfl) (by decide)

/-! ## C6: window → feature matrix
(`sliding_window.to_dataframe` + `operators._align_features`)

`to_dataframe` collects, per buffered record, the raw values of the 6 model
codes (missing → `None`), builds a 6-column frame in code order, and renames
the columns positionally to `FEATURES`; on an empty buffer the rename
`df.columns = FEATURES` raises (0 columns vs 6 names).  `_align_features`
adds a 0.0-filled column for any requested name не present, then coerces each
requested column with `astype(float)`: `None` becomes NaN, numeric strings are
parsed, and an unparseable string raises `ValueError` (uncaught — the call is
outside every `try` in `flat_map`). -/

/-- Exceptions raised by the pandas operations involved. -/
inductive PyErr where
  | valueError
deriving DecidableEq, Repr

/-- Decimal digit value. -/
def digitVal (c : Char) : Option ℕ :=
  if '0' ≤ c ∧ c ≤ '9' then some (c.toNat - '0'.toNat) else none

/-- Parse a digit run (accepting the empty run as 0 for use after a dot). -/
def parseNatAux : List Char → ℕ → Option ℕ
  | [], acc => some acc
  | c :: cs, acc =>
    match digitVal c with
    | some d => parseNatAux cs (acc * 10 + d)
    | none => none

/-- Split a character list at the first dot. -/
def splitDot : List Char → List Char × Option (List Char)
  | [] => ([], none)
  | c :: r =>
    if c = '.' then ([], some r)
    else
      let p := splitDot r
      (c :: p.1, p.2)

/-- The fragment of Python `float(str)` modelled here: optional sign, decimal
digits with an optional fractional part ("1", "-2.5", ".5", "1." …).
Exponents and inf/nan spellings are outside the fragment. -/
def parseFloat? (s : String) : Option ℚ :=
  let go : List Char → Option ℚ := fun cs =>
    let p := splitDot cs
    match p.2 with
    | none =>
      match p.1 with
      | [] => none
      | _ => (parseNatAux p.1 0).map (fun n => (n : ℚ))
    | some f =>
      if p.1.isEmpty ∧ f.isEmpty then none
      else
        match parseNatAux p.1 0, parseNatAux f 0 with
        | some n, some m => some ((n : ℚ) + (m : ℚ) / (10 : ℚ) ^ f.length)
        | _, _ => none
  match s.data with
  | '-' :: r => (go r).map (fun q => -q)
  | '+' :: r => go r
  | r => go r

/-- `astype(float)` on one cell: `None` → NaN, number kept, string parsed,
unparseable string raises `ValueError`. -/
def pyFloat : PyVal → Except PyErr FloatV
  | PyVal.vnone => Except.ok FloatV.nan
  | PyVal.vnum q => Except.ok (FloatV.num q)
  | PyVal.vstr s =>
    match parseFloat? s with
    | some q => Except.ok (FloatV.num q)
    | none => Except.error PyErr.valueError

/-- Total variant of `pyFloat` (used only to state matrix contents where
coercibility is hypothesised). -/
def coerce (v : PyVal) : FloatV :=
  match pyFloat v with
  | Except.ok f => f
  | Except.error _ => FloatV.nan

/-- `pyFloat` succeeds on this value. -/
def coercibleB (v : PyVal) : Bool :=
  match pyFloat v with
  | Except.ok _ => true
  | Except.error _ => false

/-- `astype(float)` on a column, first failure aborts. -/
def astypeFloat : List PyVal → Except PyErr (List FloatV)
  | [] => Except.ok []
  | v :: vs =>
    match pyFloat v with
    | Except.error e => Except.error e
    | Except.ok f =>
      match astypeFloat vs with
      | Except.error e => Except.error e
      | Except.ok fs => Except.ok (f :: fs)

/-- `SlidingWindow.to_dataframe`: the 6 raw columns in code order, renamed
positionally to `FEATURES`; empty buffer raises on the rename. -/
def to_dataframe (buf : List Rec) : Except PyErr (List (String × List PyVal)) :=
  if buf.isEmpty then Except.error PyErr.valueError
  else Except.ok ((MODEL_FEATURE_CODES.zip FEATURES).map
    (fun cf => (cf.2, buf.map (fun e => pyGet e.params cf.1))))

/-- `MultiModelAnomalyOperator._align_features`: for each requested name, a
missing column becomes a 0.0-filled column of the frame's row count, then the
column is coerced with `astype(float)`; finally `df[feature_names]` keeps the
requested names in order. -/
def align_features (cols : List (String × List PyVal)) (names : List String)
    (nRows : ℕ) : Except PyErr (List (String × List FloatV)) :=
  match names with
  | [] => Except.ok []
  | nm :: rest =>
    let colRes : Except PyErr (List FloatV) :=
      match cols.lookup nm with
      | some vs => astypeFloat vs
      | none => Except.ok (List.replicate nRows (FloatV.num 0))
    match colRes with
    | Except.error e => Except.error e
    | Except.ok fs =>
      match align_features cols rest nRows with
      | Except.error e => Except.error e
      | Except.ok tail => Except.ok ((nm, fs) :: tail)

/-- Lines 174–175 of `flat_map`: `to_dataframe` then `_align_features`. -/
def windowFeatureMatrix (buf : List Rec) (names : List String) :
    Except PyErr (List (String × List FloatV)) :=
  match to_dataframe buf with
  | Except.error e => Except.error e
  | Except.ok cols => align_features cols names buf.length

/-- C6 counterexample: a buffered record carrying the malformed numeric string
"abc" makes the alignment raise `ValueError` (a fault), and a record with a
missing code yields NaN — not 0.0 — in the matrix. -/
theorem c6_fault_and_nan_counterexample :
    windowFeatureMatrix [Rec.mk none [("001_A", PyVal.vstr "abc")]] FEATURES
      = Except.error PyErr.valueError ∧
    windowFeatureMatrix [Rec.mk none []] FEATURES
      = Except.ok (FEATURES.map (fun f => (f, [FloatV.nan]))) ∧
    FloatV.nan ≠ FloatV.num 0 := by
  refine ⟨rfl, rfl, by decide⟩

/-- Lookup misses when the key is absent. -/
lemma lookup_eq_none_not_mem {α β : Type} [BEq α] [LawfulBEq α] {k : α} :
    ∀ {l : List (α × β)}, k ∉ l.map Prod.fst → l.lookup k = none := by
  intro l
  induction l with
  | nil => intro _; rfl
  | cons a t ih =>
    intro h
    obtain ⟨a1, a2⟩ := a
    simp only [List.map_cons, List.mem_cons] at h
    push_neg at h
    rw [lookup_cons_ne h.1]
    exact ih h.2

/-- Lookup on a keyed map of distinct names returns pointwise values. -/
lemma lookup_map_pair {α β : Type} [BEq α] [LawfulBEq α] (g : α → β) :
    ∀ {names : List α} {nm : α}, names.Nodup → nm ∈ names →
      (names.map (fun n => (n, g n))).lookup nm = some (g nm) := by
  intro names
  induction names with
  | nil => intro nm _ h; cases h
  | cons a t ih =>
    intro nm hnd hmem
    rcases List.mem_cons.mp hmem with rfl | hmem2
    · exact lookup_cons_self nm (g nm) _
    · have hne : nm ≠ a := by
        intro he
        rw [he] at hmem2
        exact (List.nodup_cons.mp hnd).1 hmem2
      rw [List.map_cons, lookup_cons_ne hne]
      exact ih (List.nodup_cons.mp hnd).2 hmem2

/-- Coercible columns pass `astype(float)` yielding the coerced values. -/
lemma astypeFloat_ok : ∀ (l : List PyVal), (∀ v ∈ l, coercibleB v = true) →
    astypeFloat l = Except.ok (l.map coerce) := by
  intro l
  induction l with
  | nil => intro _; rfl
  | cons v vs ih =>
    intro h
    have hv := h v (List.mem_cons_self v vs)
    have hvs := ih (fun w hw => h w (List.mem_cons_of_mem v hw))
    simp only [astypeFloat, List.map_cons]
    cases hp : pyFloat v with
    | error e => rw [coercibleB, hp] at hv; cases hv
    | ok f =>
      rw [hvs]
      have : coerce v = f := by rw [coerce, hp]
      rw [this]

/-- The value `_align_features` computes for one requested name. -/
def alignCol (cols : List (String × List PyVal)) (nm : String) (nRows : ℕ) :
    List FloatV :=
  match cols.lookup nm with
  | some vs => vs.map coerce
  | none => List.replicate nRows (FloatV.num 0)

/-- When every present requested column is coercible, alignment succeeds and
produces the pointwise columns in request order. -/
lemma align_features_ok (cols : List (String × List PyVal)) (nRows : ℕ) :
    ∀ (names : List String),
      (∀ nm ∈ names, ∀ vs, cols.lookup nm = some vs →
        ∀ v ∈ vs, coercibleB v = true) →
      align_features cols names nRows
        = Except.ok (names.map (fun nm => (nm, alignCol cols nm nRows))) := by
  intro names
  induction names with
  | nil => intro _; rfl
  | cons nm rest ih =>
    intro h
    have hrest := ih (fun n hn => h n (List.mem_cons_of_mem nm hn))
    cases hl : cols.lookup nm with
    | some vs =>
      have hast := astypeFloat_ok vs (h nm (List.mem_cons_self nm rest) vs hl)
      simp only [align_features, hl, hast, hrest, alignCol, List.map_cons]
    | none =>
      simp only [align_features, hl, hrest, alignCol, List.map_cons]

/-- In the frame built by `to_dataframe`, each canonical (code, name) pair's
column holds exactly that code's raw values. -/
lemma df_lookup_canonical (buf : List Rec) (c nm : String)
    (hmem : (c, nm) ∈ MODEL_FEATURE_CODES.zip FEATURES) :
    ((MODEL_FEATURE_CODES.zip FEATURES).map
      (fun cf => (cf.2, buf.map (fun e => pyGet e.params cf.1)))).lookup nm
      = some (buf.map (fun e => pyGet e.params c)) := by
  fin_cases hmem <;> rfl

/-- C6 amended: for a nonempty buffer whose model-code values are all
float-coercible, the window matrix succeeds with columns exactly in the
requested order; each canonical column holds the code's coerced values
(`None` → NaN); a requested name outside the canonical features yields a
0.0-filled column.  (An unparseable string or an empty buffer raises
instead — see the counterexample.) -/
theorem c6_matrix_amended (buf : List Rec) (names : List String)
    (hne : buf ≠ []) (hnd : names.Nodup)
    (hok : ∀ r ∈ buf, ∀ c ∈ MODEL_FEATURE_CODES,
      coercibleB (pyGet r.params c) = true) :
    ∃ cols, windowFeatureMatrix buf names = Except.ok cols ∧
      cols.map Prod.fst = names ∧
      (∀ c nm, (c, nm) ∈ MODEL_FEATURE_CODES.zip FEATURES → nm ∈ names →
        cols.lookup nm = some (buf.map (fun r => coerce (pyGet r.params c)))) ∧
      (∀ nm ∈ names, nm ∉ FEATURES →
        cols.lookup nm = some (List.replicate buf.length (FloatV.num 0))) := by
  have hbne : buf.isEmpty = false := by
    cases buf with
    | nil => exact absurd rfl hne
    | cons a t => rfl
  set dfCols := (MODEL_FEATURE_CODES.zip FEATURES).map
    (fun cf => (cf.2, buf.map (fun e => pyGet e.params cf.1))) with hdf
  have hdfok : to_dataframe buf = Except.ok dfCols := by
    rw [to_dataframe, hbne]
    simp
  have hcolok : ∀ nm ∈ names, ∀ vs, dfCols.lookup nm = some vs →
      ∀ v ∈ vs, coercibleB v = true := by
    intro nm _ vs hl v hv
    have hmem := lookup_some_mem hl
    rw [hdf] at hmem
    rcases List.mem_map.mp hmem with ⟨cf, hcf, hpair⟩
    have hc : cf.1 ∈ MODEL_FEATURE_CODES := (List.of_mem_zip hcf).1
    have hvs : buf.map (fun e => pyGet e.params cf.1) = vs :=
      congrArg Prod.snd hpair
    rw [← hvs] at hv
    rcases List.mem_map.mp hv with ⟨r, hr, hveq⟩
    rw [← hveq]
    exact hok r hr cf.1 hc
  refine ⟨names.map (fun nm => (nm, alignCol dfCols nm buf.length)), ?_, ?_, ?_, ?_⟩
  · rw [windowFeatureMatrix, hdfok]
    exact align_features_ok dfCols buf.length names hcolok
  · have hcomp : (Prod.fst ∘ fun nm => (nm, alignCol dfCols nm buf.length))
        = id := rfl
    rw [List.map_map, hcomp, List.map_id]
  · intro c nm hzip hmem
    rw [lookup_map_pair _ hnd hmem]
    simp only [alignCol, df_lookup_canonical buf c nm hzip, List.map_map]
    rfl
  · intro nm hmem hnotf
    rw [lookup_map_pair _ hnd hmem]
    have hkeys : dfCols.map Prod.fst = FEATURES := by
      rw [hdf, List.map_map]
      rfl
    have hnone : dfCols.lookup nm = none := by
      apply lookup_eq_none_not_mem
      rw [hkeys]
      exact hnotf
    simp only [alignCol, hnone]

/-- Concrete window for the C6 witness: one record with a numeric value, a
numeric string, and the remaining codes missing. -/
def c6Buf : List Rec :=
  [Rec.mk none [("001_A", PyVal.vnum 3), ("001_B", PyVal.vstr "2.5")]]

/-- Canonical names plus a name outside the canonical set. -/
def c6Names : List String := "Extra" :: FEATURES

/-- C6 amended witness at the concrete window and name list. -/
theorem c6_matrix_amended_witness :
    c6Buf ≠ [] ∧ c6Names.Nodup ∧
    (∃ cols, windowFeatureMatrix c6Buf c6Names = Except.ok cols ∧
      cols.map Prod.fst = c6Names ∧
      (∀ c nm, (c, nm) ∈ MODEL_FEATURE_CODES.zip FEATURES → nm ∈ c6Names →
        cols.lookup nm = some (c6Buf.map (fun r => coerce (pyGet r.params c)))) ∧
      (∀ nm ∈ c6Names, nm ∉ FEATURES →
        cols.lookup nm
          = some (List.replicate c6Buf.length (FloatV.num 0)))) :=
  ⟨by decide, by decide,
    c6_matrix_amended c6Buf c6Names (by decide) (by decide) (by decide)⟩

/-! ## C8: strict per-row completeness and the zero-rows outcome -/

/-- Scenario C row: all codes but `001_C` present. -/
def rowMissingC : PyDict PyVal :=
  [("001_A", PyVal.vnum 1), ("001_B", PyVal.vnum 1), ("001_D", PyVal.vnum 1),
   ("001_E", PyVal.vnum 1), ("001_F", PyVal.vnum 1)]

/-- C8 counterexample: the codebase defines no exception named
`NoValidTrainingRows` (`app/utils/exceptions.py` lists every custom
exception), and a training call whose rows all fail the filter returns
normally — it does not raise. -/
theorem c8_no_exception_counterexample :
    "NoValidTrainingRows" ∉ pipelineExceptionNames ∧
    trainSingleMonitor [] 7 3 "T" [rowMissingC]
      = TrainOutcome.skippedNoValidRows := by
  exact ⟨by decide, by decide⟩

/-- C8 amended: a historical row is kept iff every one of the 6 canonical
feature codes is present and non-null; if zero rows survive, the routine
returns without persisting anything (logging a warning — no exception is
raised and no `NoValidTrainingRows` error exists); the persisted row count
equals the number of surviving rows (dropped rows are excluded entirely). -/
theorem c8_row_filter (st : S3Store) (monitor pg : ℤ) (t : String)
    (param_rows : List (PyDict PyVal)) :
    (∀ params : PyDict PyVal,
      (filterRow MODEL_FEATURE_CODES params).isSome ↔
        ∀ c ∈ MODEL_FEATURE_CODES, pyGet params c ≠ PyVal.vnone) ∧
    ((∀ row ∈ param_rows, filterRow MODEL_FEATURE_CODES row = none) →
      trainSingleMonitor st monitor pg t param_rows
        = TrainOutcome.skippedNoValidRows) ∧
    (∀ (md : PyDict MetaVal) (ws : List String) (st' : S3Store),
      trainSingleMonitor st monitor pg t param_rows
        = TrainOutcome.trained md ws st' →
      md.lookup "rows_used" = some (MetaVal.mint
        ((param_rows.filterMap (filterRow MODEL_FEATURE_CODES)).length))) := by
  refine ⟨fun params => filterRow_isSome_iff MODEL_FEATURE_CODES params, ?_, ?_⟩
  · intro hall
    have hnil : param_rows.filterMap (filterRow MODEL_FEATURE_CODES) = [] :=
      List.filterMap_eq_nil_iff.mpr hall
    simp only [trainSingleMonitor, hnil]
    rfl
  · intro md ws st' h
    simp only [trainSingleMonitor] at h
    by_cases he : (param_rows.filterMap (filterRow MODEL_FEATURE_CODES)).isEmpty
    · rw [if_pos he] at h
      cases h
    · rw [if_neg he] at h
      injection h with h1 h2 h3
      subst h1
      simp [trainMetadata, List.lookup]

/-- C8 witness: the Scenario C row is dropped (filter yields `none`), an
all-dropped call returns the no-rows outcome, and a mixed call keeps exactly
the complete row. -/
theorem c8_row_filter_witness :
    (¬ (filterRow MODEL_FEATURE_CODES rowMissingC).isSome) ∧
    trainSingleMonitor [] 7 3 "T" [rowMissingC]
      = TrainOutcome.skippedNoValidRows ∧
    (∀ (md : PyDict MetaVal) (ws : List String) (st' : S3Store),
      trainSingleMonitor [] 7 3 "T" [validRow, rowMissingC]
        = TrainOutcome.trained md ws st' →
      md.lookup "rows_used" = some (MetaVal.mint 1)) := by
  have h := c8_row_filter [] 7 3 "T" [rowMissingC]
  have h2 := c8_row_filter [] 7 3 "T" [validRow, rowMissingC]
  refine ⟨?_, h.2.1 (by decide), ?_⟩
  · intro hsome
    have := (h.1 rowMissingC).mp hsome "001_C" (by decide)
    exact this (by decide)
  · intro md ws st' heq
    have := h2.2.2 md ws st' heq
    simpa using this

/-! ## C9: `detect_anomalies` (`app/predictor/anomaly_detector.py`)

The aligned frame is a rational matrix with an explicit column count (so the
pandas `df.empty` test — any axis of length 0 — is expressible); the fitted
scaler carries its training feature count (`RobustScaler.transform` raises on
a column-count mismatch) and the fitted forest is an opaque predictor.
NaN cells are abstracted away here (irrelevant to the rejection paths). -/

/-- The aligned feature frame passed to `detect_anomalies`. -/
structure DFrame where
  ncols : ℕ
  rows : List (List ℚ)
deriving DecidableEq, Repr

/-- A fitted `RobustScaler`: recorded feature count, centers, scales. -/
structure Scaler where
  nFeaturesIn : ℕ
  center : List ℚ
  scale : List ℚ
deriving DecidableEq, Repr

/-- `scaler.transform`: raises unless the column count matches the count
recorded at fit time; otherwise centers and scales pointwise. -/
def Scaler.transform (s : Scaler) (X : DFrame) : Except Unit (List (List ℚ)) :=
  if X.ncols ≠ s.nFeaturesIn then Except.error ()
  else Except.ok (X.rows.map (fun r =>
    (r.zip (s.center.zip s.scale)).map (fun p => (p.1 - p.2.1) / p.2.2)))

/-- A fitted `IsolationForest`: an opaque per-row labeller (+1 normal, −1
anomalous), which may raise. -/
structure IFModel where
  predict : List (List ℚ) → Except Unit (List ℤ)

/-- The result dictionary of `detect_anomalies` (absent keys are `none`). -/
structure DetectResult where
  is_anomaly : Bool
  reason : Option String
  anomaly_indices : Option (List ℕ)
  top_features : Option (List String)
  model_metadata : Option (PyDict MetaVal)
deriving DecidableEq, Repr

/-- `np.where(preds == -1)[0]`. -/
def anomalyIndices (preds : List ℤ) : List ℕ :=
  preds.enum.filterMap (fun p => if p.2 = -1 then some p.1 else none)

/-- `_find_top_features`: per-column mean of the scaled matrix, mean absolute
deviation of the anomaly rows, top-2 column names by descending deviation
(ties by ascending original index — `np.argsort` leaves ties unspecified). -/
def findTopFeatures (X : List (List ℚ)) (ncols : ℕ) (idxs : List ℕ) :
    List String :=
  if idxs.isEmpty then []
  else
    let n : ℚ := X.length
    let means := (List.range ncols).map
      (fun j => (X.map (fun r => r.getD j 0)).sum / n)
    let avgDev := (List.range ncols).map (fun j =>
      ((idxs.map (fun i => |(X.getD i []).getD j 0 - means.getD j 0|)).sum
        / (idxs.length : ℚ)))
    let sorted := avgDev.enum.mergeSort
      (fun a b => (b.2 < a.2 : Bool) || ((a.2 == b.2) && (a.1 ≤ b.1 : Bool)))
    (sorted.take 2).map (fun p => FEATURES.getD p.1 "")

/-- `detect_anomalies`: empty-frame rejection, scaling, prediction, anomaly
row extraction, feature attribution. -/
def detect_anomalies (df : DFrame) (model : IFModel) (scaler : Scaler)
    (metadata : PyDict MetaVal) : DetectResult :=
  if df.rows.isEmpty ∨ df.ncols = 0 then
    DetectResult.mk false (some "EMPTY_DATAFRAME") none none none
  else
    match scaler.transform df with
    | Except.error _ => DetectResult.mk false (some "SCALER_FAILURE") none none none
    | Except.ok X =>
      match model.predict X with
      | Except.error _ => DetectResult.mk false (some "MODEL_FAILURE") none none none
      | Except.ok preds =>
        let idxs := anomalyIndices preds
        if idxs.isEmpty then
          DetectResult.mk false none (some []) (some []) (some metadata)
        else
          DetectResult.mk true none (some idxs)
            (some (findTopFeatures X df.ncols idxs)) (some metadata)

/-- An always-normal forest for the concrete instances. -/
def c9Model : IFModel := IFModel.mk (fun X => Except.ok (X.map (fun _ => 1)))

/-- A scaler fitted on 6 features. -/
def c9Scaler : Scaler :=
  Scaler.mk 6 (List.replicate 6 0) (List.replicate 6 1)

/-- C9 counterexample: a 3-column frame against a 6-feature scaler is
rejected with reason `SCALER_FAILURE` — the code has no `FEATURE_MISMATCH`
check — and the empty frame is rejected with reason `EMPTY_DATAFRAME`, not
`EMPTY_INPUT`. -/
theorem c9_reason_counterexample :
    (detect_anomalies (DFrame.mk 3 [[1, 2, 3]]) c9Model c9Scaler []).reason
      = some "SCALER_FAILURE" ∧
    some "SCALER_FAILURE" ≠ some "FEATURE_MISMATCH" ∧
    (detect_anomalies (DFrame.mk 6 []) c9Model c9Scaler []).reason
      = some "EMPTY_DATAFRAME" ∧
    some "EMPTY_DATAFRAME" ≠ some "EMPTY_INPUT" := by
  exact ⟨rfl, by decide, rfl, by decide⟩

/-- C9 amended: an empty frame is rejected non-anomalously with reason
`EMPTY_DATAFRAME` (the code's spelling, not `EMPTY_INPUT`); there is no
explicit column-count check — a non-empty frame whose column count differs
from the scaler's recorded feature count is rejected non-anomalously with
reason `SCALER_FAILURE`, raised by the scaler-transform step, still before
any scoring (the result is the same for every model). -/
theorem c9_reject_paths (df : DFrame) (model : IFModel) (scaler : Scaler)
    (metadata : PyDict MetaVal) :
    ((df.rows.isEmpty ∨ df.ncols = 0) →
      detect_anomalies df model scaler metadata
        = DetectResult.mk false (some "EMPTY_DATAFRAME") none none none) ∧
    (¬ (df.rows.isEmpty ∨ df.ncols = 0) → df.ncols ≠ scaler.nFeaturesIn →
      detect_anomalies df model scaler metadata
        = DetectResult.mk false (some "SCALER_FAILURE") none none none) := by
  constructor
  · intro h
    rw [detect_anomalies, if_pos h]
  · intro h hm
    rw [detect_anomalies, if_neg h]
    have ht : scaler.transform df = Except.error () := by
      rw [Scaler.transform, if_pos hm]
    rw [ht]

/-- C9 amended witness: the 3-column frame and the empty frame. -/
theorem c9_reject_paths_witness :
    (detect_anomalies (DFrame.mk 6 []) c9Model c9Scaler []
      = DetectResult.mk false (some "EMPTY_DATAFRAME") none none none) ∧
    (detect_anomalies (DFrame.mk 3 [[1, 2, 3]]) c9Model c9Scaler []
      = DetectResult.mk false (some "SCALER_FAILURE") none none none) :=
  ⟨(c9_reject_paths (DFrame.mk 6 []) c9Model c9Scaler []).1 (by decide),
   (c9_reject_paths (DFrame.mk 3 [[1, 2, 3]]) c9Model c9Scaler []).2
     (by decide) (by decide)⟩

/-! ## C5: `TrendAPIClient.get_history` (`app/api/trend_api_client.py`)

The method takes **only** a monitor id.  It builds a single POST payload with
a hardcoded, fixed time range and interval, issues exactly one request, and
normalizes the first monitor's readings; any failure or empty stage raises
`APICallError`.  There is no time-range parameter, no chunk loop, and no
strict/best-effort policy configuration anywhere in the module. -/

/-- The POST payload of `get_history`. -/
structure TrendRequest where
  startDateTime : String
  endDateTime : String
  intervalValue : ℕ
  intervalUnit : String
  externalDeviceParameterGroupIds : List ℤ
deriving DecidableEq, Repr

/-- The (single) payload built for a monitor: the range and interval are
string/number literals in the source. -/
def trendRequestOf (monitor_id : ℤ) : TrendRequest :=
  TrendRequest.mk "2025-11-29T10:05:00.000Z" "2025-12-29T10:05:00.000Z" 6
    "hour" [monitor_id]

/-- One element of `monitors[0]["readings"]`: `jsonavg = none` models a
missing key or a `json.loads` failure (the row is skipped). -/
structure RawReading where
  time : Option ℤ
  monitorId : Option ℤ
  jsonavg : Option (PyDict PyVal)
deriving DecidableEq, Repr

/-- The HTTP response as consumed by `get_history`. -/
structure TrendResponse where
  requestFailed : Bool
  status : ℕ
  monitors : List (List RawReading)
deriving DecidableEq, Repr

/-- A normalized historical record (`values` plus injected timestamp and
monitor id). -/
structure Reading where
  values : PyDict PyVal
  time : Option ℤ
  monitorId : Option ℤ
deriving DecidableEq, Repr

/-- The `APICallError` cases raised by `get_history`. -/
inductive APIErr where
  | httpRequestFailed
  | unauthorized
  | httpStatus (code : ℕ)
  | noMonitors
  | noReadings
  | noUsableRecords
deriving DecidableEq, Repr

/-- `get_history`: returns the result and the list of requests issued (to
state chunking behaviour); the HTTP layer is the oracle `env`. -/
def get_history (env : TrendRequest → TrendResponse) (monitor_id : ℤ) :
    Except APIErr (List Reading) × List TrendRequest :=
  let req := trendRequestOf monitor_id
  let resp := env req
  let result : Except APIErr (List Reading) :=
    if resp.requestFailed then Except.error APIErr.httpRequestFailed
    else if resp.status = 401 then Except.error APIErr.unauthorized
    else if resp.status ≠ 200 then Except.error (APIErr.httpStatus resp.status)
    else
      match resp.monitors with
      | [] => Except.error APIErr.noMonitors
      | readings :: _ =>
        if readings.isEmpty then Except.error APIErr.noReadings
        else
          let normalized := readings.filterMap (fun r =>
            match r.jsonavg with
            | none => none
            | some values => some (Reading.mk values r.time r.monitorId))
          if normalized.isEmpty then Except.error APIErr.noUsableRecords
          else Except.ok normalized
  (result, [req])

/-- A response with one usable reading. -/
def c5EnvOk : TrendRequest → TrendResponse :=
  fun _ => TrendResponse.mk false 200 [[RawReading.mk (some 0) (some 7) (some [])]]

/-- C5 counterexample: `get_history` issues exactly one request; its time
range is the same hardcoded constant for every monitor — there is no
requested [start, end) range to split, no chunking, and hence no per-chunk
policy to configure. -/
theorem c5_single_fixed_request_counterexample :
    (get_history c5EnvOk 7).2 = [trendRequestOf 7] ∧
    (trendRequestOf 7).startDateTime = "2025-11-29T10:05:00.000Z" ∧
    (trendRequestOf 7).endDateTime = "2025-12-29T10:05:00.000Z" ∧
    (trendRequestOf 99).startDateTime = (trendRequestOf 7).startDateTime ∧
    (trendRequestOf 99).endDateTime = (trendRequestOf 7).endDateTime := by
  exact ⟨rfl, rfl, rfl, rfl, rfl⟩

/-- C5 amended: `get_history` takes only a monitor id and performs a single
un-chunked request over the fixed hardcoded range 2025-11-29T10:05Z …
2025-12-29T10:05Z with a 6-hour interval; HTTP 401 is surfaced as an
immediate `APICallError`; a response with zero readings aborts the whole
acquisition with `APICallError` (single-shot strictness — there is no
skip/best-effort configuration). -/
theorem c5_get_history_single_shot (env : TrendRequest → TrendResponse)
    (monitor_id : ℤ) :
    (get_history env monitor_id).2 = [trendRequestOf monitor_id] ∧
    (trendRequestOf monitor_id).startDateTime = "2025-11-29T10:05:00.000Z" ∧
    (trendRequestOf monitor_id).endDateTime = "2025-12-29T10:05:00.000Z" ∧
    (trendRequestOf monitor_id).intervalValue = 6 ∧
    (trendRequestOf monitor_id).intervalUnit = "hour" ∧
    ((env (trendRequestOf monitor_id)).requestFailed = false →
      (env (trendRequestOf monitor_id)).status = 401 →
      (get_history env monitor_id).1 = Except.error APIErr.unauthorized) ∧
    ((env (trendRequestOf monitor_id)).requestFailed = false →
      (env (trendRequestOf monitor_id)).status = 200 →
      (env (trendRequestOf monitor_id)).monitors.head? = some [] →
      (get_history env monitor_id).1 = Except.error APIErr.noReadings) := by
  refine ⟨rfl, rfl, rfl, rfl, rfl, ?_, ?_⟩
  · intro hf h401
    simp only [get_history, hf, h401]
    rfl
  · intro hf h200 hempty
    cases hmon : (env (trendRequestOf monitor_id)).monitors with
    | nil => rw [hmon] at hempty; cases hempty
    | cons readings rest =>
      rw [hmon] at hempty
      injection hempty with hempty
      subst hempty
      simp only [get_history, hf, h200, hmon]
      rfl

/-- A 401 response and an empty-readings response for the witness. -/
def c5Env401 : TrendRequest → TrendResponse :=
  fun _ => TrendResponse.mk false 401 []

/-- Empty-readings response. -/
def c5EnvEmpty : TrendRequest → TrendResponse :=
  fun _ => TrendResponse.mk false 200 [[]]

/-- C5 amended witness: concrete 401 and empty-readings responses. -/
theorem c5_get_history_single_shot_witness :
    (get_history c5EnvOk 7).2 = [trendRequestOf 7] ∧
    (get_history c5Env401 7).1 = Except.error APIErr.unauthorized ∧
    (get_history c5EnvEmpty 7).1 = Except.error APIErr.noReadings :=
  ⟨(c5_get_history_single_shot c5EnvOk 7).1,
   (c5_get_history_single_shot c5Env401 7).2.2.2.2.2.1 rfl rfl,
   (c5_get_history_single_shot c5EnvEmpty 7).2.2.2.2.2.2 rfl rfl rfl⟩

/-! ## C10: concurrent `ModelCache.get` (interleaving model)

`ModelCache` (`app/models/model_cache.py`) creates **no lock of any kind**:
`get` is plain Python whose individual dict operations are atomic (GIL) but
whose sequence is freely interleavable.  Two threads calling `get` on the
same missing key are modelled with per-thread phases; the membership check
and the (shared-state-free) load form one atomic step, the insert+evict the
next.  `OrderedDict` assignment to an existing key updates the value in
place. -/

/-- `self.cache[k] = v` on an `OrderedDict`: update in place if present,
else append at the most-recently-used end. -/
def dictSet (l : List (ℤ × ℕ)) (k : ℤ) (v : ℕ) : List (ℤ × ℕ) :=
  if (l.lookup k).isSome then l.map (fun p => if p.1 = k then (k, v) else p)
  else l ++ [(k, v)]

/-- Per-thread control point inside `get`. -/
inductive TPhase where
  | start
  | loaded (b : ℕ)
  | done (ret : ℕ)
deriving DecidableEq, Repr

/-- Shared cache plus both threads' control points. -/
structure ConcState where
  cache : List (ℤ × ℕ)
  maxSize : ℕ
  t1 : TPhase
  t2 : TPhase
deriving DecidableEq, Repr

/-- One atomic step of a thread executing `get(k)` whose loader would return
`bload`: the hit path pops and re-inserts and returns; the miss path records
the loaded bundle (the load touches no shared state); the insert path writes
the dict and evicts if over capacity. -/
def threadStep (k : ℤ) (bload : ℕ) (cache : List (ℤ × ℕ)) (max : ℕ) :
    TPhase → List (ℤ × ℕ) × TPhase
  | TPhase.start =>
    match cache.lookup k with
    | some b => (cache.filter (fun p => p.1 ≠ k) ++ [(k, b)], TPhase.done b)
    | none => (cache, TPhase.loaded bload)
  | TPhase.loaded b =>
    let c1 := dictSet cache k b
    let c2 := if max < c1.length then c1.drop 1 else c1
    (c2, TPhase.done b)
  | TPhase.done r => (cache, TPhase.done r)

/-- Run a schedule (`true` = thread 1 steps, `false` = thread 2 steps). -/
def runSched (k : ℤ) (b1 b2 : ℕ) : List Bool → ConcState → ConcState
  | [], s => s
  | true :: rest, s =>
    let r := threadStep k b1 s.cache s.maxSize s.t1
    runSched k b1 b2 rest { s with cache := r.1, t1 := r.2 }
  | false :: rest, s =>
    let r := threadStep k b2 s.cache s.maxSize s.t2
    runSched k b1 b2 rest { s with cache := r.1, t2 := r.2 }

/-- C10 counterexample: with no lock, the interleaving check₁, check₂,
insert₁, insert₂ is permitted; both threads miss, both load, and the thread
that inserts second (thread 2) keeps and returns its own bundle 20 while the
already-inserted bundle 10 is overwritten — the claim's single-writer-wins
discard never happens. -/
theorem c10_no_lock_counterexample :
    (runSched 5 10 20 [true, false, true, false]
      (ConcState.mk [] 32 TPhase.start TPhase.start)).t2 = TPhase.done 20 ∧
    (runSched 5 10 20 [true, false, true, false]
      (ConcState.mk [] 32 TPhase.start TPhase.start)).t1 = TPhase.done 10 ∧
    (runSched 5 10 20 [true, false, true, false]
      (ConcState.mk [] 32 TPhase.start TPhase.start)).cache = [(5, 20)] ∧
    (20 : ℕ) ≠ 10 := by
  exact ⟨rfl, rfl, rfl, by decide⟩

/-- C10 amended: `ModelCache.get` takes no lock, so the interleaving in which
both callers miss before either inserts is permitted; each caller performs
its own load and insert, the later insert overwrites the earlier entry
(last-writer-wins in the map), and each caller returns its own loaded
bundle — there is no discard of the redundant load and no return of the
already-inserted entry. -/
theorem c10_concurrent_miss_overwrites (k : ℤ) (b1 b2 : ℕ) (max : ℕ)
    (hmax : 1 ≤ max) :
    (runSched k b1 b2 [true, false, true, false]
      (ConcState.mk [] max TPhase.start TPhase.start)).t1 = TPhase.done b1 ∧
    (runSched k b1 b2 [true, false, true, false]
      (ConcState.mk [] max TPhase.start TPhase.start)).t2 = TPhase.done b2 ∧
    (runSched k b1 b2 [true, false, true, false]
      (ConcState.mk [] max TPhase.start TPhase.start)).cache = [(k, b2)] := by
  have hnotlt : ¬ (max < 1) := by omega
  refine ⟨?_, ?_, ?_⟩ <;>
    simp [runSched, threadStep, dictSet, hnotlt, lookup_cons_self]

/-- C10 amended witness. -/
theorem c10_concurrent_miss_overwrites_witness :
    (runSched 5 10 20 [true, false, true, false]
      (ConcState.mk [] 32 TPhase.start TPhase.start)).t1 = TPhase.done 10 ∧
    (runSched 5 10 20 [true, false, true, false]
      (ConcState.mk [] 32 TPhase.start TPhase.start)).t2 = TPhase.done 20 ∧
    (runSched 5 10 20 [true, false, true, false]
      (ConcState.mk [] 32 TPhase.start TPhase.start)).cache = [(5, 20)] :=
  c10_concurrent_miss_overwrites 5 10 20 32 (by decide)

end OilAnomaly
